import Mathlib

set_option maxRecDepth 8000

/-!
Verification of the zkaleido SP1 Groth16 verifier
(`adapters/sp1/groth16-verifier`) against its specification.

The development shallowly embeds the byte-level codec for BN254 G1/G2
points, the verifying-key / proof loaders, public-input preparation, the
hash-to-field reduction and the pairing-based verification algorithm.

Modelling conventions:
* Buffers are `List Nat`, one element per byte (big-endian wire order).
* `bn::Fq` is `ZMod pBN`, `bn::Fr` is `ZMod rBN`; `bn::Fq2` is a pair of
  `Fq` (real and imaginary part, with the irreducible polynomial
  u^2 + 1, as in the `bn` crate).
* The external `bn` crate's square-root routines (`Fq::sqrt`,
  `Fq2::sqrt`) are modelled as an explicit `Fq → Option Fq`
  (resp. `Fq2 → Option Fq2`) parameter of every decoder that calls them;
  the library's contract (a returned value squares to the argument, and
  `none` is returned exactly on quadratic non-residues) appears as a
  hypothesis where a theorem needs it.
* The external `bn` crate's Jacobian group arithmetic for G2 (needed by
  the decoders' subgroup check, by `-G2::from(beta)` and by
  `AffineG2::from_jacobian`) is embedded concretely, following the
  formulas of the crate.  The group arithmetic used by
  `verification.rs` (`prepare_inputs`, `pairing_batch`) is modelled
  abstractly, as an additive commutative monoid with scalar action and
  an abstract pairing into a target monoid.
* Rust panics (out-of-bounds slicing) are modelled by `Option`:
  a result of `none` means the original code panics.
-/

/-! ## Big-endian bytes -/

/-- Big-endian interpretation of a byte list as a natural number. -/
def beNat (bs : List Nat) : Nat := bs.foldl (fun acc b => acc * 256 + b) 0

/-- Fixed-width big-endian byte encoding of a natural number
(most significant byte first); encodes `n % 256 ^ k` in `k` bytes. -/
def beBytes : Nat → Nat → List Nat
  | 0, _ => []
  | k + 1, n => n / 256 ^ k % 256 :: beBytes k (n % 256 ^ k)

/-- The slice `&buf[i..j]` of a byte buffer (callers guarantee the
bounds; Rust's panic on out-of-range slices is modelled separately where
a claim depends on it). -/
def listSlice (bs : List Nat) (i j : Nat) : List Nat := (bs.drop i).take (j - i)

/-! ## BN254 base and scalar fields -/

/-- BN254 base field modulus (the `bn` crate's `Fq` modulus). -/
def pBN : Nat := 21888242871839275222246405745257275088696311157297823662689037894645226208583

/-- BN254 scalar field modulus (the `bn` crate's `Fr` modulus). -/
def rBN : Nat := 21888242871839275222246405745257275088548364400416034343698204186575808495617

instance : NeZero pBN := ⟨by decide⟩

instance : NeZero rBN := ⟨by decide⟩

/-- The `bn` crate's base field `Fq`. -/
abbrev Fq := ZMod pBN

/-- The `bn` crate's scalar field `Fr`. -/
abbrev Fr := ZMod rBN

/-- `bn::FieldError`, as returned by `Fq::from_slice` / `Fr::from_slice`. -/
inductive FieldError where
  | InvalidSliceLength : FieldError
  | NotMember : FieldError
deriving DecidableEq

/-- `bn::GroupError`, as returned by `AffineG1::new` / `AffineG2::new`. -/
inductive GroupError where
  | NotOnCurve : GroupError
  | NotInSubgroup : GroupError
deriving DecidableEq

/-- `bn::Fq::from_slice`: big-endian decode of exactly 32 bytes, failing
when the value is not below the field modulus. -/
def fqFromSlice (bs : List Nat) : Except FieldError Fq :=
  if bs.length ≠ 32 then .error .InvalidSliceLength
  else if beNat bs < pBN then .ok ((beNat bs : Nat) : Fq)
  else .error .NotMember

/-- `bn::Fr::from_slice`: big-endian decode of exactly 32 bytes, failing
when the value is not below the scalar field modulus. -/
def frFromSlice (bs : List Nat) : Except FieldError Fr :=
  if bs.length ≠ 32 then .error .InvalidSliceLength
  else if beNat bs < rBN then .ok ((beNat bs : Nat) : Fr)
  else .error .NotMember

/-- `Fq::to_big_endian`: canonical 32-byte big-endian encoding. -/
def fqToBytes (a : Fq) : List Nat := beBytes 32 a.val

/-- The `bn` crate's `Fq2 = Fq[u] / (u^2 + 1)`, stored as
(real, imaginary). -/
structure Fq2 where
  real : Fq
  imaginary : Fq
deriving DecidableEq

instance : Add Fq2 := ⟨fun a b => ⟨a.real + b.real, a.imaginary + b.imaginary⟩⟩

instance : Sub Fq2 := ⟨fun a b => ⟨a.real - b.real, a.imaginary - b.imaginary⟩⟩

instance : Mul Fq2 := ⟨fun a b =>
  ⟨a.real * b.real - a.imaginary * b.imaginary,
   a.real * b.imaginary + a.imaginary * b.real⟩⟩

instance : Neg Fq2 := ⟨fun a => ⟨-a.real, -a.imaginary⟩⟩

/-- Zero of `Fq2`. -/
def Fq2.zero : Fq2 := ⟨0, 0⟩

/-- One of `Fq2`. -/
def Fq2.one : Fq2 := ⟨1, 0⟩

/-- Convenience constructor for `Fq2` literals. -/
def fq2Mk (r i : Nat) : Fq2 := ⟨(r : Fq), (i : Fq)⟩

/-! ## BN254 curve constants and affine points -/

/-- `G1::b()` — the constant of the curve `y^2 = x^3 + 3` over `Fq`. -/
def g1B : Fq := 3

/-- `G2::b()` — the constant of the twisted curve over `Fq2`,
`b / (9 + u)`, with the values hardcoded by the `bn` crate. -/
def g2B : Fq2 :=
  fq2Mk 19485874751759354771024239261021720505790618469301721065564631296452457478373
        266929791119991161246907387137283842545076965332900288569378510910307636690

/-- `bn::AffineG1`: an affine G1 point (never the point at infinity). -/
structure AffineG1 where
  x : Fq
  y : Fq
deriving DecidableEq

/-- `bn::AffineG2`: an affine G2 point (never the point at infinity). -/
structure AffineG2 where
  x : Fq2
  y : Fq2
deriving DecidableEq

/-! ## Jacobian G2 arithmetic (the `bn` crate's `G2` group operations,
needed for the decoders' subgroup check, beta negation and
`AffineG2::from_jacobian`). -/

/-- `bn::G2`: a G2 point in Jacobian coordinates. -/
structure JacG2 where
  x : Fq2
  y : Fq2
  z : Fq2
deriving DecidableEq

/-- `G2::zero()`: the group identity (z = 0). -/
def jacZero : JacG2 := ⟨Fq2.zero, Fq2.one, Fq2.zero⟩

/-- `G2::is_zero()`: a Jacobian point is the identity iff `z = 0`. -/
def JacG2.isZero (p : JacG2) : Bool := p.z = Fq2.zero

/-- `G2::from(affine)`: embed an affine point with `z = 1`. -/
def jacOfAffine (p : AffineG2) : JacG2 := ⟨p.x, p.y, Fq2.one⟩

/-- `-G2`: Jacobian negation. -/
def jacNeg (p : JacG2) : JacG2 := ⟨p.x, -p.y, p.z⟩

/-- `G2::double()`, following the `bn` crate's doubling formulas. -/
def jacDouble (p : JacG2) : JacG2 :=
  let a := p.x * p.x
  let b := p.y * p.y
  let c := b * b
  let d0 := (p.x + b) * (p.x + b) - a - c
  let d := d0 + d0
  let e := a + a + a
  let f := e * e
  let x3 := f - (d + d)
  let ec2 := c + c
  let ec4 := ec2 + ec2
  let eightC := ec4 + ec4
  let y1z1 := p.y * p.z
  ⟨x3, e * (d - x3) - eightC, y1z1 + y1z1⟩

/-- `G2 + G2`, following the `bn` crate's mixed Jacobian addition. -/
def jacAdd (p q : JacG2) : JacG2 :=
  if p.isZero then q
  else if q.isZero then p
  else
    let z1s := p.z * p.z
    let z2s := q.z * q.z
    let u1 := p.x * z2s
    let u2 := q.x * z1s
    let z1c := p.z * z1s
    let z2c := q.z * z2s
    let s1 := p.y * z2c
    let s2 := q.y * z1c
    if u1 = u2 ∧ s1 = s2 then jacDouble p
    else
      let h := u2 - u1
      let sd := s2 - s1
      let i := (h + h) * (h + h)
      let j := h * i
      let r := sd + sd
      let v := u1 * i
      let s1j := s1 * j
      let x3 := r * r - j - (v + v)
      let y3 := r * (v - x3) - (s1j + s1j)
      let z3 := ((p.z + q.z) * (p.z + q.z) - z1s - z2s) * h
      ⟨x3, y3, z3⟩

/-- One step of the `bn` crate's MSB-first double-and-add scalar
multiplication loop. -/
def g2MulStep (p acc : JacG2) (b : Bool) : JacG2 :=
  let d := jacDouble acc
  if b then jacAdd d p else d

/-- Fuel-bounded scalar multiplication `p * s` (Horner form of the
`bn` crate's MSB-first double-and-add loop). -/
def jacMulAux : Nat → JacG2 → Nat → JacG2
  | 0, _, _ => jacZero
  | fuel + 1, p, s =>
    if s = 0 then jacZero
    else
      let h := jacMulAux fuel p (s / 2)
      let hh := jacDouble h
      if s % 2 = 1 then jacAdd hh p else hh

/-- `G2 * scalar`: scalars in `Fr` have values below `2 ^ 256`. -/
def jacMulNat (p : JacG2) (s : Nat) : JacG2 := jacMulAux 256 p s

/-- MSB-first binary expansion (no leading zeros), fuel-bounded. -/
def natBits : Nat → Nat → List Bool
  | 0, _ => []
  | fuel + 1, s => if s = 0 then [] else natBits fuel (s / 2) ++ [s % 2 == 1]

/-- `AffineG2::from_jacobian` (`G2::to_affine`): `none` on the identity,
otherwise divide by `z^2`, `z^3` (with the crate's `z = 1` fast path;
`Fq2` inversion is conjugate over norm). -/
def fq2Inv (a : Fq2) : Fq2 :=
  let t := (a.real * a.real + a.imaginary * a.imaginary)⁻¹
  ⟨a.real * t, -a.imaginary * t⟩

/-- See `fq2Inv`; `from_jacobian` itself. -/
def fromJacobianG2 (g : JacG2) : Option AffineG2 :=
  if g.z = Fq2.zero then none
  else if g.z = Fq2.one then some ⟨g.x, g.y⟩
  else
    let zinv := fq2Inv g.z
    let zinv2 := zinv * zinv
    some ⟨g.x * zinv2, g.y * (zinv2 * zinv)⟩

/-- `AffineG1::new`: on-curve check (`check_order` is off for G1 in the
`bn` crate, so there is no subgroup check). -/
def AffineG1.new (x y : Fq) : Except GroupError AffineG1 :=
  if y * y = x * x * x + g1B then .ok ⟨x, y⟩ else .error .NotOnCurve

/-- The `bn` crate's G2 subgroup check `(p * (-Fr::one()) + p).is_zero()`
performed by `AffineG2::new`; `-Fr::one()` has integer value `rBN - 1`. -/
def g2SubgroupCheck (x y : Fq2) : Bool :=
  (jacAdd (jacMulNat ⟨x, y, Fq2.one⟩ (rBN - 1)) ⟨x, y, Fq2.one⟩).isZero

/-- `AffineG2::new`: on-curve check followed by the subgroup check
(`check_order` is on for G2 in the `bn` crate). -/
def AffineG2.new (x y : Fq2) : Except GroupError AffineG2 :=
  if y * y = x * x * x + g2B then
    if g2SubgroupCheck x y then .ok ⟨x, y⟩ else .error .NotInSubgroup
  else .error .NotOnCurve

/-- `G2::one()` — the fixed G2 generator of the `bn` crate (NOT the
group identity; `G2::zero()` is the identity). -/
def g2GenX : Fq2 :=
  fq2Mk 10857046999023057135944570762232829481370756359578518086990519993285655852781
        11559732032986387107991004021392285783925812861821192530917403151452391805634

/-- Imaginary/real parts of the y-coordinate of `G2::one()`. -/
def g2GenY : Fq2 :=
  fq2Mk 8495653923123431417604973247489272438418190587263600148770280649306958101930
        4082367875863433681332203403145435568316851327593401208105741076214120093531

/-- `G2::one()` in Jacobian coordinates (z = 1). -/
def g2OneJac : JacG2 := ⟨g2GenX, g2GenY, Fq2.one⟩

/-- The affine form of `G2::one()`. -/
def g2GenAffine : AffineG2 := ⟨g2GenX, g2GenY⟩

/-! ## Concrete evaluation of the generator's subgroup check

The kernel cannot reduce the full 254-step double-and-add in one
stretch (the recursion is too deep), so the fold is evaluated in
chunks of 16 bits with explicitly stated intermediate states. -/

/-- Convenience constructor for Jacobian G2 literals. -/
def jacMk (x y z : Fq2) : JacG2 := ⟨x, y, z⟩

def sgChunk0 : List Bool := [true, true, false, false, false, false, false, true, true, false, false, true, false, false, false, true]

def sgChunk1 : List Bool := [false, false, true, true, true, false, false, true, true, true, false, false, true, false, true, true]

def sgChunk2 : List Bool := [true, false, false, false, false, true, false, false, true, true, false, false, false, true, true, false]

def sgChunk3 : List Bool := [true, false, false, false, false, false, false, false, true, false, true, false, false, true, true, false]

def sgChunk4 : List Bool := [true, true, true, false, false, false, false, true, false, true, false, false, false, false, false, true]

def sgChunk5 : List Bool := [false, false, false, true, false, true, true, false, true, true, false, true, true, false, true, false]

def sgChunk6 : List Bool := [false, false, false, false, false, true, true, false, false, false, false, false, false, true, false, true]

def sgChunk7 : List Bool := [false, true, true, false, false, false, false, true, false, true, true, true, false, true, false, false]

def sgChunk8 : List Bool := [true, false, true, false, false, false, false, false, true, true, false, false, true, true, true, true]

def sgChunk9 : List Bool := [true, false, true, false, false, false, false, true, false, false, true, false, false, false, false, true]

def sgChunk10 : List Bool := [true, true, true, false, false, true, true, false, true, true, true, false, false, true, false, true]

def sgChunk11 : List Bool := [true, true, false, false, false, false, true, false, false, true, false, false, false, true, false, true]

def sgChunk12 : List Bool := [false, false, false, false, true, true, true, true, true, false, false, false, false, true, true, true]

def sgChunk13 : List Bool := [true, true, false, true, false, true, true, false, false, true, false, false, true, true, true, true]

def sgChunk14 : List Bool := [true, true, false, false, false, false, false, false, false, false, false, false, false, false, false, false]

def sgChunk15 : List Bool := [false, false, false, false, false, false, false, false, false, false, false, false, false, false]

def sgState0 : JacG2 := (jacMk (fq2Mk 0 0) (fq2Mk 1 0) (fq2Mk 0 0))

def sgState1 : JacG2 := (jacMk (fq2Mk 458318417683241575885123966869584845685734703062593009208483773787096362180 18323737010373723410849574873320013650144423919343655847199860726356247939077) (fq2Mk 5441367004469814153203001464140595438900215953221501838740597450412177493694 3263529245129010744719088330415548511802625598399495539097994990228951664277) (fq2Mk 16896561309288775700664802336178637025877218339004753749861657630887519135715 5450693888936425384299980062023828505881456290144041377355778983497108961025))

def sgState2 : JacG2 := (jacMk (fq2Mk 2916302255509887815427701498612029159570035390376559795926499487346917755278 14653531035057256222067946126412371511106025271179715987453491368247737172972) (fq2Mk 21606316715468383882059710247199864316257216457968653610812719717024948255500 13447487895555489034580448915685741323739750122065814988757742374724411230357) (fq2Mk 2742677304441139720827656408313600701430706340021051643362505731441821571284 3458721800578774538273440401365805955330964451361948335378760386864406088597))

def sgState3 : JacG2 := (jacMk (fq2Mk 4186860409596084842518206339165064807306131262745585992755685718189373434849 2506656157667299433264097429585486005353060377094648331723219120063399183584) (fq2Mk 4463862726605260360819365335917317066817546372337474343608703642634091270832 10981099960598961245916757100990562174952135888899695779527281358608172900797) (fq2Mk 2716500516279646185087318639515753199138272786120808244372608255775743364896 12930256133956637067629832559839119266565880400480319368224366227769738177902))

def sgState4 : JacG2 := (jacMk (fq2Mk 7841761405250057378946043991119353287384208773797253319362763990628365603400 20601403253290667626915182453224346859643562045989504095849527923540425280916) (fq2Mk 15494648965772557613992452159261118381260076252328647051637397421591133078446 18363801882043214830516579352127548309878685031709236016093131903825227105011) (fq2Mk 15028878084214590110758930940682601568759906812307811313541210816609486720371 4356126029533293826786205053762331649349698165034647888911374830529635550685))

def sgState5 : JacG2 := (jacMk (fq2Mk 19966895144092256551446975187409451348342102062188949359176880711653799418295 1723288369335208982989961168220327248201365165260652821306778630158691195283) (fq2Mk 19717077956855395499110594755906353008036194206851145981202901283158126711216 10312879949740663607310216286588701937044764769821665334102426246368310013715) (fq2Mk 7263103512896604476301795495189419824360759945294710323318614766361760625186 18928194997816091136403305677844401111616012529592554469458173647727845849143))

def sgState6 : JacG2 := (jacMk (fq2Mk 10077831108008152642015771152967464463917212359704770264016786647371385957636 19675091363635861835002112715715466580505549076071605672963190301560123135756) (fq2Mk 7244023859558591211498030256327197892672089661281248122430898009926067784757 18185568293452020146568179950739180340687350537928857207264681699695593266618) (fq2Mk 9901410338211282210695118320490826348425780768299902358070929509464790942585 14783609094514112924137569076260214142784625362910992180269496451849697402061))

def sgState7 : JacG2 := (jacMk (fq2Mk 15605776708921100668747734650655594557233344629213983115051740797581257483524 9659077065447532011291130288850833462216171125740724300651949142213289981964) (fq2Mk 6458412506353178392772586604201155735052603792083293752491366782905022958786 21195758007549209716845726608281184672923440699392424192078660290222452577993) (fq2Mk 12558921173677200542191750617281212182886219384782581954977021121284669993817 19199736726944617343374538296883596565438077962227260608928097639323061927644))

def sgState8 : JacG2 := (jacMk (fq2Mk 5709434019505518056974935019632872157178499664400113817403478995331333718651 7093970601710321817187661075000112641855289915815993478762159759278006207993) (fq2Mk 3783024992653555244004228950429195759844204137248814116089613057956899575235 9674503698411408756137493859957469804591166199571573416598658148552500943627) (fq2Mk 10549369135281199340169328048698074780809908927075013310039178277281078835859 2496475155590347272065121188597785489722655759659765494170788460132156185818))

def sgState9 : JacG2 := (jacMk (fq2Mk 19161782943130045687185746405443714817560755958658940645772669115635722481388 16608695198821049335800463528358472422537427112465157804277848809760529709269) (fq2Mk 18175226208033206408942486452808722178622164160539260614638191526896058243165 9854510296878699137202837501119924971846106501063249260372923149206021894256) (fq2Mk 18802774496984027350673752120631046025604618812034580245620492174177517156295 15993761306030513691508035181988092443120420988010987447336465684068424254860))

def sgState10 : JacG2 := (jacMk (fq2Mk 16907414636040667288401773361646524065834709851336944645286924120645102826921 13467637831398073454835981614131238042932333961351162694156812134171672436706) (fq2Mk 7602431726531132866294557648530338089953557155693063142032851771122858537410 19524471015715159261751500469157545153541472905651652787377107047837957619147) (fq2Mk 11520090129526183610109412843570213698004419946330184090116187910387669764330 13336373111993232170548980503038232485075895093282389818730996537527049034117))

def sgState11 : JacG2 := (jacMk (fq2Mk 9787983077019981638086166019836322175790946593123599907377041452005093298922 10122366461483946388376587393036658508842995164738748729683233288612025275475) (fq2Mk 9202491389000368844733171127625612594841726952108410543477014291790426624967 2554954637534776885741528652420518447807442714106115593372356508475498048035) (fq2Mk 2015271194316909202858458868810362486419285431439262498630617053807980466069 16754848796869834237885545818675794311996787807026964725508656523218334349459))

def sgState12 : JacG2 := (jacMk (fq2Mk 21555692248777517719367261507459263381680176926865311404597589850970288945315 11505055452716906406636062328663283678120317063906251939374256077215709470921) (fq2Mk 15620389136880960742907972521237675939058880523288727239842448412231318319375 7501923343230546977444071006236108985542163434739422478562580295388381405953) (fq2Mk 10060628823015396916267037956068847697589098877008155994019057021332813259127 4197850589429953839238944639865515958815559459681692406683056766801437929199))

def sgState13 : JacG2 := (jacMk (fq2Mk 12800197536751675448329674075001781588371003054773450846560234805193494485211 14632751396591622178944889622582845582331352123100460423300726776787548594967) (fq2Mk 6608869740436659725272691861056385006955910357654430366862053500993835153672 9624336733921178938989658135432907231958214328142390735769663101002670669677) (fq2Mk 6103962002019545388998540394275183538342659935135323338318761160382445515620 17391311247646704332875025184045327106565897293639194670117835455081098039739))

def sgState14 : JacG2 := (jacMk (fq2Mk 9740974122673208170980111922013079782365169825893821975092134522329833195241 19667214427161184824342970080595679119214145846738735778985999951571259503362) (fq2Mk 3881148367696234128676808057030892348409008662083091940635431963643908129160 9278789926104813841852566046266884599448606925864235639369927244010264107550) (fq2Mk 14666260270768380716355437144792273661981950640284452962879468882628884223690 5239725716404875757659428730766976437212510967003854006683707898203048717393))

def sgState15 : JacG2 := (jacMk (fq2Mk 8066649306275154296666187793392627877165295230398893093645166579312785395658 10949668470962757056140835957548877564030469989672077625703659499276091102145) (fq2Mk 19478534155882378898287144142254704593873976037362516223703198238547321538887 3128679260172063740770043844988371205735687373082976813262893482399634175067) (fq2Mk 6833192721774865930142385097978688322926423025689890542209988122310601924366 565385774402647949422614374324296915478690298399887383037801962633360854919))

def sgState16 : JacG2 := (jacMk (fq2Mk 6819577148600681468181269896945569751671823019930600875208328735037706946119 6569095723438082307551184383439372447810661016592528375573703541598709558009) (fq2Mk 19942487589692567981001677720931247771914845046592087472812852465494546769641 1994540869700564145710663882871654576232792022541499346246260179203940935310) (fq2Mk 8312497638325934289575780059665499953879482603644216779358955405061728191935 8049978573873836055007340911531781786325893118936909055904496515720636511785))

/-- Flatten a Jacobian G2 point to its six coordinate values (used to
make kernel evaluation of concrete points cheap). -/
def jacG2ToNats (p : JacG2) : Nat × Nat × Nat × Nat × Nat × Nat :=
  (p.x.real.val, p.x.imaginary.val, p.y.real.val, p.y.imaginary.val,
   p.z.real.val, p.z.imaginary.val)


/-- The MSB-first bits of `rBN - 1`, as one literal list. -/
def rBits : List Bool := sgChunk0 ++ sgChunk1 ++ sgChunk2 ++ sgChunk3 ++ sgChunk4 ++ sgChunk5 ++ sgChunk6 ++ sgChunk7 ++ sgChunk8 ++ sgChunk9 ++ sgChunk10 ++ sgChunk11 ++ sgChunk12 ++ sgChunk13 ++ sgChunk14 ++ sgChunk15

/-! ## Flags and size constants (`types/constant.rs`, `*/constant.rs`) -/

/-- Mask selecting the two most significant flag bits of the first byte. -/
def MASK : Nat := 192

/-- Flag for the canonical ("positive") y branch: `0b10 << 6`. -/
def COMPRESSED_POSITIVE : Nat := 128

/-- Flag for the other ("negative") y branch: `0b11 << 6`. -/
def COMPRESSED_NEGATIVE : Nat := 192

/-- Flag for the point at infinity: `0b01 << 6`. -/
def COMPRESSED_INFINITY : Nat := 64

/-- Clearing the flag bits of the first byte (`x_bytes[0] &= !MASK`). -/
def clearFlagBits (bs : List Nat) : List Nat := (bs.headI &&& 63) :: bs.tail

/-- The square-root routine of the external `bn` crate for `Fq`
(`Fq::sqrt`), passed explicitly to every decoder that calls it. -/
abbrev FqSqrt := Fq → Option Fq

/-- The square-root routine of the external `bn` crate for `Fq2`
(`Fq2::sqrt`), passed explicitly to every decoder that calls it. -/
abbrev Fq2Sqrt := Fq2 → Option Fq2

/-- Lexicographic comparison of two `Fq2` values: imaginary parts first,
then real parts (the `is_y_less_than_neg_y` computation). -/
def fq2LexLt (a b : Fq2) : Bool :=
  if a.imaginary.val < b.imaginary.val then true
  else if b.imaginary.val < a.imaginary.val then false
  else a.real.val < b.real.val

/-! ## Errors

`Error` and `Groth16Error` are the error enums used by
`conversion/`, `gnark_conversion/`, `hashes.rs` and `verification.rs`
(the sp1-verifier style enums); `Types.SerializationError` and
`Types.Groth16Error` are the typed errors of `error.rs` used by
`types/g1.rs`, `types/vk.rs` and `types/proof.rs`.  Unit error structs
are collapsed into nullary constructors, and the static `context`
diagnostic string of `BufferLengthError` is elided. -/

/-- The sp1-verifier style `Error` enum (only the variants the embedded
code uses). -/
inductive Error where
  | InvalidXLength : Error
  | InvalidData : Error
  | InvalidPoint : Error
  | Field : FieldError → Error
  | Group : GroupError → Error
  | FailedToGetFrFromRandomBytes : Error
deriving DecidableEq

/-- The sp1-verifier style `Groth16Error` used by `verification.rs` and
the `gnark_conversion` loaders. -/
inductive Groth16Error where
  | ProofVerificationFailed : Groth16Error
  | PrepareInputsFailed : Groth16Error
  | GeneralError : Error → Groth16Error
deriving DecidableEq

/-- `error.rs`: `SerializationError` (with `BufferLengthError`,
`InvalidDataFormatError` and `InvalidPointError` inlined). -/
inductive Types.SerializationError where
  | BufferLength : (expected : Nat) → (actual : Nat) → Types.SerializationError
  | InvalidFormat : Types.SerializationError
  | InvalidPoint : Types.SerializationError
  | Field : FieldError → Types.SerializationError
  | Group : GroupError → Types.SerializationError
deriving DecidableEq

/-- `error.rs`: `Groth16Error` of the typed generation. -/
inductive Types.Groth16Error where
  | VerificationFailed : Types.Groth16Error
  | VkeyHashMismatch : Types.Groth16Error
  | Serialization : Types.SerializationError → Types.Groth16Error
deriving DecidableEq

/-- Conversion applied by `?` in `types/vk.rs` / `types/proof.rs` when a
G2 decoder (which uses the `Error` enum) fails: the error is wrapped
into `SerializationError` field by field. -/
def Types.serializationOfError : Error → Types.SerializationError
  | .Field e => .Field e
  | .Group e => .Group e
  | .InvalidPoint => .InvalidPoint
  | _ => .InvalidFormat

/-! ## G1 decoders and encoders -/

/-- `conversion/g1.rs::get_ys_from_x_g1`: both square roots of
`x^3 + b`, numerically smaller first. -/
def get_ys_from_x_g1 (sqrtFq : FqSqrt) (x : Fq) : Except Error (Fq × Fq) :=
  match sqrtFq (x * x * x + g1B) with
  | none => .error .InvalidPoint
  | some y =>
    let neg_y := -y
    if y.val < neg_y.val then .ok (y, neg_y) else .ok (neg_y, y)

/-- `conversion/g1.rs::compressed_bytes_to_affine_g1`. -/
def compressed_bytes_to_affine_g1 (sqrtFq : FqSqrt) (buf : List Nat) :
    Except Error AffineG1 :=
  if buf.length ≠ 32 then .error .InvalidXLength
  else
    let flag := buf.headI &&& MASK
    match fqFromSlice (clearFlagBits buf) with
    | .error _ => .error .InvalidPoint
    | .ok x_fq =>
      match get_ys_from_x_g1 sqrtFq x_fq with
      | .error e => .error e
      | .ok (y, neg_y) =>
        if flag = COMPRESSED_NEGATIVE then (AffineG1.new x_fq neg_y).mapError Error.Group
        else if flag = COMPRESSED_POSITIVE then (AffineG1.new x_fq y).mapError Error.Group
        else .error .InvalidData

/-- `conversion/g1.rs::uncompressed_bytes_to_affine_g1`. -/
def uncompressed_bytes_to_affine_g1 (buf : List Nat) : Except Error AffineG1 :=
  if buf.length ≠ 64 then .error .InvalidXLength
  else
    match fqFromSlice (listSlice buf 0 32) with
    | .error e => .error (.Field e)
    | .ok x =>
      match fqFromSlice (listSlice buf 32 64) with
      | .error e => .error (.Field e)
      | .ok y => (AffineG1.new x y).mapError Error.Group

/-- `types/g1.rs::SAffineG1::from_gnark_compressed_bytes` (the
`SAffineG1` newtype wrapper around `bn::AffineG1` is elided). -/
def SAffineG1.from_gnark_compressed_bytes (sqrtFq : FqSqrt) (bytes : List Nat) :
    Except Types.SerializationError AffineG1 :=
  if bytes.length ≠ 32 then .error (.BufferLength 32 bytes.length)
  else
    let flag := bytes.headI &&& MASK
    match fqFromSlice (clearFlagBits bytes) with
    | .error e => .error (.Field e)
    | .ok x_fq =>
      match sqrtFq (x_fq * x_fq * x_fq + g1B) with
      | none => .error .InvalidPoint
      | some y =>
        let neg_y := -y
        let pair := if y.val < neg_y.val then (y, neg_y) else (neg_y, y)
        if flag = COMPRESSED_NEGATIVE then (AffineG1.new x_fq pair.2).mapError .Group
        else if flag = COMPRESSED_POSITIVE then (AffineG1.new x_fq pair.1).mapError .Group
        else .error .InvalidFormat

/-- `types/g1.rs::SAffineG1::from_uncompressed_bytes`. -/
def SAffineG1.from_uncompressed_bytes (bytes : List Nat) :
    Except Types.SerializationError AffineG1 :=
  if bytes.length ≠ 64 then .error (.BufferLength 64 bytes.length)
  else
    match fqFromSlice (listSlice bytes 0 32) with
    | .error e => .error (.Field e)
    | .ok x =>
      match fqFromSlice (listSlice bytes 32 64) with
      | .error e => .error (.Field e)
      | .ok y => (AffineG1.new x y).mapError .Group

/-- `types/g1.rs::SAffineG1::to_gnark_compressed_bytes` (the affine
point converts to Jacobian with `z = 1`, on which `normalize` is the
identity, so the emitted coordinates are the point's own). -/
def SAffineG1.to_gnark_compressed_bytes (p : AffineG1) : List Nat :=
  let x_bytes := fqToBytes p.x
  let flag := if p.y.val < (-p.y).val then COMPRESSED_POSITIVE else COMPRESSED_NEGATIVE
  (x_bytes.headI ||| flag) :: x_bytes.tail

/-- `types/g1.rs::SAffineG1::to_uncompressed_bytes`. -/
def SAffineG1.to_uncompressed_bytes (p : AffineG1) : List Nat :=
  fqToBytes p.x ++ fqToBytes p.y

/-! ## G2 decoders and encoders -/

/-- `gnark_conversion/g2.rs::get_ys_from_x_g2`: both square roots of
`x^3 + b` over `Fq2`, lexicographically smaller first. -/
def get_ys_from_x_g2 (sqrtFq2 : Fq2Sqrt) (x : Fq2) : Except Error (Fq2 × Fq2) :=
  match sqrtFq2 (x * x * x + g2B) with
  | none => .error .InvalidPoint
  | some y =>
    let neg_y := -y
    if fq2LexLt y neg_y then .ok (y, neg_y) else .ok (neg_y, y)

/-- `gnark_conversion/g2.rs::compressed_bytes_to_affine_g2`. -/
def compressed_bytes_to_affine_g2 (sqrtFq2 : Fq2Sqrt) (buf : List Nat) :
    Except Error AffineG2 :=
  if buf.length ≠ 64 then .error .InvalidXLength
  else
    let flag := buf.headI &&& MASK
    if flag = COMPRESSED_INFINITY then
      match fromJacobianG2 g2OneJac with
      | some p => .ok p
      | none => .error .InvalidData
    else
      match fqFromSlice (clearFlagBits (listSlice buf 0 32)) with
      | .error e => .error (.Field e)
      | .ok x1 =>
        match fqFromSlice (listSlice buf 32 64) with
        | .error e => .error (.Field e)
        | .ok x0 =>
          let x_fq2 : Fq2 := ⟨x0, x1⟩
          match get_ys_from_x_g2 sqrtFq2 x_fq2 with
          | .error e => .error e
          | .ok (y, neg_y) =>
            if flag = COMPRESSED_NEGATIVE then (AffineG2.new x_fq2 neg_y).mapError Error.Group
            else if flag = COMPRESSED_POSITIVE then (AffineG2.new x_fq2 y).mapError Error.Group
            else .error .InvalidData

/-- `gnark_conversion/g2.rs::uncompressed_bytes_to_g2_point`. -/
def uncompressed_bytes_to_g2_point (buf : List Nat) : Except Error AffineG2 :=
  if buf.length ≠ 128 then .error .InvalidXLength
  else
    match fqFromSlice (listSlice buf 0 32) with
    | .error e => .error (.Field e)
    | .ok x1 =>
      match fqFromSlice (listSlice buf 32 64) with
      | .error e => .error (.Field e)
      | .ok x0 =>
        match fqFromSlice (listSlice buf 64 96) with
        | .error e => .error (.Field e)
        | .ok y1 =>
          match fqFromSlice (listSlice buf 96 128) with
          | .error e => .error (.Field e)
          | .ok y0 => (AffineG2.new ⟨x0, x1⟩ ⟨y0, y1⟩).mapError Error.Group

/-- `types/g2.rs::SAffineG2::from_gnark_compressed_bytes` (the
`SAffineG2` newtype wrapper around `bn::AffineG2` is elided; this file
of the snapshot uses the `Error` enum). -/
def SAffineG2.from_gnark_compressed_bytes (sqrtFq2 : Fq2Sqrt) (bytes : List Nat) :
    Except Error AffineG2 :=
  if bytes.length ≠ 64 then .error .InvalidXLength
  else
    let flag := bytes.headI &&& MASK
    if flag = COMPRESSED_INFINITY then
      match fromJacobianG2 g2OneJac with
      | some p => .ok p
      | none => .error .InvalidData
    else
      match fqFromSlice (clearFlagBits (listSlice bytes 0 32)) with
      | .error e => .error (.Field e)
      | .ok x1 =>
        match fqFromSlice (listSlice bytes 32 64) with
        | .error e => .error (.Field e)
        | .ok x0 =>
          let x_fq2 : Fq2 := ⟨x0, x1⟩
          match sqrtFq2 (x_fq2 * x_fq2 * x_fq2 + g2B) with
          | none => .error .InvalidPoint
          | some y =>
            let neg_y := -y
            let pair := if fq2LexLt y neg_y then (y, neg_y) else (neg_y, y)
            if flag = COMPRESSED_NEGATIVE then (AffineG2.new x_fq2 pair.2).mapError Error.Group
            else if flag = COMPRESSED_POSITIVE then (AffineG2.new x_fq2 pair.1).mapError Error.Group
            else .error .InvalidData

/-- `types/g2.rs::SAffineG2::from_uncompressed_bytes`. -/
def SAffineG2.from_uncompressed_bytes (bytes : List Nat) : Except Error AffineG2 :=
  if bytes.length ≠ 128 then .error .InvalidXLength
  else
    match fqFromSlice (listSlice bytes 0 32) with
    | .error e => .error (.Field e)
    | .ok x1 =>
      match fqFromSlice (listSlice bytes 32 64) with
      | .error e => .error (.Field e)
      | .ok x0 =>
        match fqFromSlice (listSlice bytes 64 96) with
        | .error e => .error (.Field e)
        | .ok y1 =>
          match fqFromSlice (listSlice bytes 96 128) with
          | .error e => .error (.Field e)
          | .ok y0 => (AffineG2.new ⟨x0, x1⟩ ⟨y0, y1⟩).mapError Error.Group

/-- `types/g2.rs::SAffineG2::to_gnark_compressed_bytes` (the affine
point converts to Jacobian with `z = 1`, on which `normalize` is the
identity). -/
def SAffineG2.to_gnark_compressed_bytes (p : AffineG2) : List Nat :=
  let x1_bytes := fqToBytes p.x.imaginary
  let x0_bytes := fqToBytes p.x.real
  let flag := if fq2LexLt p.y (-p.y) then COMPRESSED_POSITIVE else COMPRESSED_NEGATIVE
  ((x1_bytes.headI ||| flag) :: x1_bytes.tail) ++ x0_bytes

/-- `types/g2.rs::SAffineG2::to_uncompressed_bytes`. -/
def SAffineG2.to_uncompressed_bytes (p : AffineG2) : List Nat :=
  fqToBytes p.x.imaginary ++ fqToBytes p.x.real ++ fqToBytes p.y.imaginary ++ fqToBytes p.y.real

/-! ## Verifying key and proof structures -/

/-- G1 elements of the verification key (generic over the point type so
that the same structure serves the byte-level loaders, which produce
affine points, and `verification.rs`, where the `bn` crate's group
arithmetic is modelled abstractly). -/
structure Groth16G1 (G : Type) where
  alpha : G
  k : List G
deriving DecidableEq

/-- G2 elements of the verification key. -/
structure Groth16G2 (H : Type) where
  beta : H
  delta : H
  gamma : H
deriving DecidableEq

/-- Verification key for the Groth16 proof. -/
structure Groth16VerifyingKey (G H : Type) where
  g1 : Groth16G1 G
  g2 : Groth16G2 H
deriving DecidableEq

/-- Proof for the Groth16 verification. -/
structure Groth16Proof (G H : Type) where
  ar : G
  krs : G
  bs : H
deriving DecidableEq

/-! ## Typed loaders (`types/proof.rs`, `types/vk.rs`) -/

/-- `types/proof.rs::GROTH16_PROOF_LENGTH` (= uncompressed size 256). -/
def GROTH16_PROOF_LENGTH : Nat := 256

/-- `types/constant.rs::GROTH16_PROOF_COMPRESSED_SIZE`. -/
def GROTH16_PROOF_COMPRESSED_SIZE : Nat := 160

/-- `types/proof.rs::Groth16Proof::load_from_gnark_bytes` (exact
256-byte uncompressed layout `ar(64) | bs(128) | krs(64)`). -/
def Types.Groth16Proof.load_from_gnark_bytes (buffer : List Nat) :
    Except Types.Groth16Error (Groth16Proof AffineG1 AffineG2) :=
  if buffer.length ≠ GROTH16_PROOF_LENGTH then
    .error (.Serialization (.BufferLength GROTH16_PROOF_LENGTH buffer.length))
  else
    match SAffineG1.from_uncompressed_bytes (listSlice buffer 0 64) with
    | .error e => .error (.Serialization e)
    | .ok ar =>
      match SAffineG2.from_uncompressed_bytes (listSlice buffer 64 192) with
      | .error e => .error (.Serialization (Types.serializationOfError e))
      | .ok bs =>
        match SAffineG1.from_uncompressed_bytes (listSlice buffer 192 256) with
        | .error e => .error (.Serialization e)
        | .ok krs => .ok ⟨ar, krs, bs⟩

/-- `types/proof.rs::Groth16Proof::from_gnark_compressed_bytes` (exact
160-byte compressed layout `ar(32) | bs(64) | krs(32)`). -/
def Types.Groth16Proof.from_gnark_compressed_bytes (sqrtFq : FqSqrt) (sqrtFq2 : Fq2Sqrt)
    (bytes : List Nat) : Except Types.Groth16Error (Groth16Proof AffineG1 AffineG2) :=
  if bytes.length ≠ GROTH16_PROOF_COMPRESSED_SIZE then
    .error (.Serialization (.BufferLength GROTH16_PROOF_COMPRESSED_SIZE bytes.length))
  else
    match SAffineG1.from_gnark_compressed_bytes sqrtFq (listSlice bytes 0 32) with
    | .error e => .error (.Serialization e)
    | .ok ar =>
      match SAffineG2.from_gnark_compressed_bytes sqrtFq2 (listSlice bytes 32 96) with
      | .error e => .error (.Serialization (Types.serializationOfError e))
      | .ok bs =>
        match SAffineG1.from_gnark_compressed_bytes sqrtFq (listSlice bytes 96 160) with
        | .error e => .error (.Serialization e)
        | .ok krs => .ok ⟨ar, krs, bs⟩

/-- `types/proof.rs::Groth16Proof::to_gnark_compressed_bytes`. -/
def Types.Groth16Proof.to_gnark_compressed_bytes (p : Groth16Proof AffineG1 AffineG2) :
    List Nat :=
  SAffineG1.to_gnark_compressed_bytes p.ar ++ SAffineG2.to_gnark_compressed_bytes p.bs ++
    SAffineG1.to_gnark_compressed_bytes p.krs

/-- `types/proof.rs::Groth16Proof::to_uncompressed_bytes`. -/
def Types.Groth16Proof.to_uncompressed_bytes (p : Groth16Proof AffineG1 AffineG2) :
    List Nat :=
  SAffineG1.to_uncompressed_bytes p.ar ++ SAffineG2.to_uncompressed_bytes p.bs ++
    SAffineG1.to_uncompressed_bytes p.krs

/-- `types/proof.rs::Groth16Proof::from_uncompressed_bytes` (alias). -/
def Types.Groth16Proof.from_uncompressed_bytes (bytes : List Nat) :
    Except Types.Groth16Error (Groth16Proof AffineG1 AffineG2) :=
  Types.Groth16Proof.load_from_gnark_bytes bytes

/-- `types/constant.rs::GNARK_VK_COMPRESSED_HEADER_SIZE` (= 292). -/
def GNARK_VK_COMPRESSED_HEADER_SIZE : Nat := 292

/-- `types/constant.rs::GNARK_VK_COMPRESSED_NUM_K_OFFSET` (= 288). -/
def GNARK_VK_COMPRESSED_NUM_K_OFFSET : Nat := 288

/-- `types/constant.rs::GROTH16_VK_UNCOMPRESSED_HEADER_SIZE` (= 452). -/
def GROTH16_VK_UNCOMPRESSED_HEADER_SIZE : Nat := 452

/-- The big-endian `u32` `num_k` read at the given offset. -/
def readNumK (buffer : List Nat) (offset : Nat) : Nat :=
  beNat (listSlice buffer offset (offset + 4))

/-- The K-point parsing loop of `types/vk.rs::from_gnark_bytes`. -/
def Types.parseKCompressed (sqrtFq : FqSqrt) (buffer : List Nat) :
    Nat → Nat → Except Types.SerializationError (List AffineG1)
  | 0, _ => .ok []
  | n + 1, offset =>
    match SAffineG1.from_gnark_compressed_bytes sqrtFq (listSlice buffer offset (offset + 32)) with
    | .error e => .error e
    | .ok p =>
      match Types.parseKCompressed sqrtFq buffer n (offset + 32) with
      | .error e => .error e
      | .ok ps => .ok (p :: ps)

/-- The K-point parsing loop of `types/vk.rs::from_uncompressed_bytes`. -/
def Types.parseKUncompressed (buffer : List Nat) :
    Nat → Nat → Except Types.SerializationError (List AffineG1)
  | 0, _ => .ok []
  | n + 1, offset =>
    match SAffineG1.from_uncompressed_bytes (listSlice buffer offset (offset + 64)) with
    | .error e => .error e
    | .ok p =>
      match Types.parseKUncompressed buffer n (offset + 64) with
      | .error e => .error e
      | .ok ps => .ok (p :: ps)

/-- `types/vk.rs::Groth16VerifyingKey::from_gnark_bytes`: GNARK layout
`alpha(32) | G1-beta padding(32) | beta(64) | gamma(64) |
G1-delta padding(32) | delta(64) | num_k(4) | k(32 each)`; beta is
negated before storing. -/
def Types.Groth16VerifyingKey.from_gnark_bytes (sqrtFq : FqSqrt) (sqrtFq2 : Fq2Sqrt)
    (buffer : List Nat) : Except Types.Groth16Error (Groth16VerifyingKey AffineG1 AffineG2) :=
  if buffer.length < GNARK_VK_COMPRESSED_HEADER_SIZE then
    .error (.Serialization (.BufferLength GNARK_VK_COMPRESSED_HEADER_SIZE buffer.length))
  else
    let num_k := readNumK buffer GNARK_VK_COMPRESSED_NUM_K_OFFSET
    let expected_size := GNARK_VK_COMPRESSED_HEADER_SIZE + num_k * 32
    if buffer.length < expected_size then
      .error (.Serialization (.BufferLength expected_size buffer.length))
    else
      match SAffineG1.from_gnark_compressed_bytes sqrtFq (listSlice buffer 0 32) with
      | .error e => .error (.Serialization e)
      | .ok g1_alpha =>
        match SAffineG2.from_gnark_compressed_bytes sqrtFq2 (listSlice buffer 64 128) with
        | .error e => .error (.Serialization (Types.serializationOfError e))
        | .ok g2_beta =>
          match SAffineG2.from_gnark_compressed_bytes sqrtFq2 (listSlice buffer 128 192) with
          | .error e => .error (.Serialization (Types.serializationOfError e))
          | .ok g2_gamma =>
            match SAffineG2.from_gnark_compressed_bytes sqrtFq2 (listSlice buffer 224 288) with
            | .error e => .error (.Serialization (Types.serializationOfError e))
            | .ok g2_delta =>
              match fromJacobianG2 (jacNeg (jacOfAffine g2_beta)) with
              | none => .error (.Serialization .InvalidPoint)
              | some neg_g2_beta =>
                match Types.parseKCompressed sqrtFq buffer num_k
                    GNARK_VK_COMPRESSED_HEADER_SIZE with
                | .error e => .error (.Serialization e)
                | .ok k => .ok ⟨⟨g1_alpha, k⟩, ⟨neg_g2_beta, g2_delta, g2_gamma⟩⟩

/-- `types/vk.rs::Groth16VerifyingKey::from_uncompressed_bytes`:
layout `alpha(64) | beta(128) | gamma(128) | delta(128) | num_k(4) |
k(64 each)`, with an exact total-length check; beta is negated before
storing. -/
def Types.Groth16VerifyingKey.from_uncompressed_bytes (bytes : List Nat) :
    Except Types.Groth16Error (Groth16VerifyingKey AffineG1 AffineG2) :=
  if bytes.length < GROTH16_VK_UNCOMPRESSED_HEADER_SIZE then
    .error (.Serialization (.BufferLength GROTH16_VK_UNCOMPRESSED_HEADER_SIZE bytes.length))
  else
    let num_k := readNumK bytes 448
    let expected_size := GROTH16_VK_UNCOMPRESSED_HEADER_SIZE + num_k * 64
    if bytes.length ≠ expected_size then
      .error (.Serialization (.BufferLength expected_size bytes.length))
    else
      match SAffineG1.from_uncompressed_bytes (listSlice bytes 0 64) with
      | .error e => .error (.Serialization e)
      | .ok g1_alpha =>
        match SAffineG2.from_uncompressed_bytes (listSlice bytes 64 192) with
        | .error e => .error (.Serialization (Types.serializationOfError e))
        | .ok g2_beta =>
          match SAffineG2.from_uncompressed_bytes (listSlice bytes 192 320) with
          | .error e => .error (.Serialization (Types.serializationOfError e))
          | .ok g2_gamma =>
            match SAffineG2.from_uncompressed_bytes (listSlice bytes 320 448) with
            | .error e => .error (.Serialization (Types.serializationOfError e))
            | .ok g2_delta =>
              match fromJacobianG2 (jacNeg (jacOfAffine g2_beta)) with
              | none => .error (.Serialization .InvalidPoint)
              | some neg_g2_beta =>
                match Types.parseKUncompressed bytes num_k
                    GROTH16_VK_UNCOMPRESSED_HEADER_SIZE with
                | .error e => .error (.Serialization e)
                | .ok k => .ok ⟨⟨g1_alpha, k⟩, ⟨neg_g2_beta, g2_delta, g2_gamma⟩⟩

/-! ## gnark_conversion loaders (`gnark_conversion/mod.rs`) -/

/-- `gnark_conversion/mod.rs::load_groth16_proof_from_bytes`: rejects
only buffers SHORTER than 256 bytes, then parses the first 256 bytes. -/
def load_groth16_proof_from_bytes (buffer : List Nat) :
    Except Groth16Error (Groth16Proof AffineG1 AffineG2) :=
  if buffer.length < GROTH16_PROOF_LENGTH then .error (.GeneralError .InvalidData)
  else
    match uncompressed_bytes_to_affine_g1 (listSlice buffer 0 64) with
    | .error e => .error (.GeneralError e)
    | .ok ar =>
      match uncompressed_bytes_to_g2_point (listSlice buffer 64 192) with
      | .error e => .error (.GeneralError e)
      | .ok bs =>
        match uncompressed_bytes_to_affine_g1 (listSlice buffer 192 256) with
        | .error e => .error (.GeneralError e)
        | .ok krs => .ok ⟨ar, krs, bs⟩

/-- Rust slice `&buf[i..j]`, `none` modelling the out-of-bounds panic. -/
def listSliceChecked (bs : List Nat) (i j : Nat) : Option (List Nat) :=
  if j ≤ bs.length then some (listSlice bs i j) else none

/-- The K-point parsing loop of
`gnark_conversion/mod.rs::load_groth16_verifying_key_from_bytes`, with
the slices' panics modelled by `none`. -/
def parseKCompressedRaw (sqrtFq : FqSqrt) (buffer : List Nat) :
    Nat → Nat → Option (Except Groth16Error (List AffineG1))
  | 0, _ => some (.ok [])
  | n + 1, offset =>
    match listSliceChecked buffer offset (offset + 32) with
    | none => none
    | some slice =>
      match compressed_bytes_to_affine_g1 sqrtFq slice with
      | .error e => some (.error (.GeneralError e))
      | .ok p =>
        match parseKCompressedRaw sqrtFq buffer n (offset + 32) with
        | none => none
        | some (.error e) => some (.error e)
        | some (.ok ps) => some (.ok (p :: ps))

/-- `gnark_conversion/mod.rs::load_groth16_verifying_key_from_bytes`:
NO length validation is performed; out-of-bounds slicing (a Rust panic)
is modelled by `none`. -/
def load_groth16_verifying_key_from_bytes (sqrtFq : FqSqrt) (sqrtFq2 : Fq2Sqrt)
    (buffer : List Nat) :
    Option (Except Groth16Error (Groth16VerifyingKey AffineG1 AffineG2)) :=
  match listSliceChecked buffer 0 32 with
  | none => none
  | some sAlpha =>
    match compressed_bytes_to_affine_g1 sqrtFq sAlpha with
    | .error e => some (.error (.GeneralError e))
    | .ok g1_alpha =>
      match listSliceChecked buffer 64 128 with
      | none => none
      | some sBeta =>
        match compressed_bytes_to_affine_g2 sqrtFq2 sBeta with
        | .error e => some (.error (.GeneralError e))
        | .ok g2_beta =>
          match listSliceChecked buffer 128 192 with
          | none => none
          | some sGamma =>
            match compressed_bytes_to_affine_g2 sqrtFq2 sGamma with
            | .error e => some (.error (.GeneralError e))
            | .ok g2_gamma =>
              match listSliceChecked buffer 224 288 with
              | none => none
              | some sDelta =>
                match compressed_bytes_to_affine_g2 sqrtFq2 sDelta with
                | .error e => some (.error (.GeneralError e))
                | .ok g2_delta =>
                  match fromJacobianG2 (jacNeg (jacOfAffine g2_beta)) with
                  | none => some (.error (.GeneralError .InvalidPoint))
                  | some neg_g2_beta =>
                    if 292 ≤ buffer.length then
                      let num_k := readNumK buffer 288
                      match parseKCompressedRaw sqrtFq buffer num_k 292 with
                      | none => none
                      | some (.error e) => some (.error e)
                      | some (.ok k) =>
                        some (.ok ⟨⟨g1_alpha, k⟩, ⟨neg_g2_beta, g2_delta, g2_gamma⟩⟩)
                    else none

/-! ## Hash-to-field (`hashes.rs`) -/

/-- `hashes.rs::hash_public_inputs`: apply the (externally supplied)
32-byte digest, zero the top 3 bits of the first byte (`&= 0x1F`), and
decode as `Fr`.  SHA-256 and Blake3 are external crates; both are
covered by quantifying over the `hasher` function. -/
def hash_public_inputs (hasher : List Nat → List Nat) (public_inputs : List Nat) :
    Except Error Fr :=
  let result := hasher public_inputs
  let masked := (result.headI &&& 31) :: result.tail
  (frFromSlice masked).mapError (fun _ => Error.FailedToGetFrFromRandomBytes)

/-! ## Input preparation and pairing check (`verification.rs`)

The `bn` crate's G1/G2/Gt group arithmetic and its `pairing_batch` are
external; they are modelled by an additive commutative monoid `G1T`
with an `Fr`-scalar action `smul` (covering `G1::from` conversion,
`+` and `*`), an abstract `G2T`, abstract negations, and a pairing map
into a monoid `GtT`, with `pairing_batch` the product of the pairings
of the list (a multi-pairing). -/

/-- `bn::pairing_batch`, modelled as the product of the pairings. -/
def pairing_batch {G1T G2T GtT : Type} [Monoid GtT] (pair : G1T → G2T → GtT)
    (ps : List (G1T × G2T)) : GtT :=
  (ps.map fun p => pair p.1 p.2).prod

/-- `verification.rs::prepare_inputs`: requires
`len(public_inputs) + 1 == len(vk.k)`, then folds
`acc + k[i+1] * input[i]` starting from `k[0]`. -/
def prepare_inputs {G1T G2T : Type} [AddCommMonoid G1T] (smul : Fr → G1T → G1T)
    (vk : Groth16VerifyingKey G1T G2T) (public_inputs : List Fr) :
    Except Groth16Error G1T :=
  if public_inputs.length + 1 ≠ vk.g1.k.length then .error .PrepareInputsFailed
  else
    .ok ((public_inputs.zip vk.g1.k.tail).foldl
      (fun acc ib => acc + smul ib.1 ib.2) (vk.g1.k.headD 0))

/-- `verification.rs::verify_groth16_algebraic`: prepare the inputs,
then accept iff the four-term multi-pairing equals `Gt::one()`. -/
def verify_groth16_algebraic {G1T G2T GtT : Type} [AddCommMonoid G1T] [Monoid GtT]
    [DecidableEq GtT] (pair : G1T → G2T → GtT) (negG1 : G1T → G1T) (negG2 : G2T → G2T)
    (smul : Fr → G1T → G1T) (vk : Groth16VerifyingKey G1T G2T)
    (proof : Groth16Proof G1T G2T) (public_inputs : List Fr) :
    Except Groth16Error Unit :=
  match prepare_inputs smul vk public_inputs with
  | .error e => .error e
  | .ok prepared_inputs =>
    if pairing_batch pair
        [(negG1 proof.ar, proof.bs), (prepared_inputs, vk.g2.gamma),
         (proof.krs, vk.g2.delta), (vk.g1.alpha, negG2 vk.g2.beta)] = 1 then .ok ()
    else .error .ProofVerificationFailed

instance {e a : Type} [DecidableEq e] [DecidableEq a] : DecidableEq (Except e a) := fun x y =>
  match x, y with
  | .error u, .error v =>
    if h : u = v then .isTrue (congrArg Except.error h)
    else .isFalse (fun hc => h (Except.error.inj hc))
  | .error _, .ok _ => .isFalse (fun hc => Except.noConfusion hc)
  | .ok _, .error _ => .isFalse (fun hc => Except.noConfusion hc)
  | .ok u, .ok v =>
    if h : u = v then .isTrue (congrArg Except.ok h)
    else .isFalse (fun hc => h (Except.ok.inj hc))

/-- A 293-byte verifying-key buffer: a valid GNARK-compressed header
(alpha = (1,2), beta/gamma/delta = INFINITY-flagged, num_k = 0) followed
by ONE extra trailing byte, so its length does not match
`header_size + num_k * 32 = 292`. -/
def c5Buffer : List Nat :=
  (128 :: (List.replicate 30 0 ++ [1])) ++ List.replicate 32 0 ++
    (64 :: List.replicate 63 0) ++ (64 :: List.replicate 63 0) ++ List.replicate 32 0 ++
    (64 :: List.replicate 63 0) ++ List.replicate 4 0 ++ [0]

/-- A 257-byte proof buffer: a valid uncompressed proof (ar = krs =
(1,2), bs = the G2 generator) followed by ONE extra trailing byte. -/
def c6Buffer : List Nat :=
  SAffineG1.to_uncompressed_bytes ⟨1, 2⟩ ++ SAffineG2.to_uncompressed_bytes g2GenAffine ++
    SAffineG1.to_uncompressed_bytes ⟨1, 2⟩ ++ [0]

theorem beBytes_length (k n : Nat) : (beBytes k n).length = k := by
  induction k generalizing n with
  | zero => rfl
  | succ k ih => simpa [beBytes] using ih (n % 256 ^ k)

theorem beNat_foldl_beBytes (k a n : Nat) :
    List.foldl (fun acc b => acc * 256 + b) a (beBytes k n) = a * 256 ^ k + n % 256 ^ k := by
  induction k generalizing a n with
  | zero => simp [beBytes, Nat.mod_one]
  | succ k ih =>
    have hmul : (256 : Nat) ^ (k + 1) = 256 ^ k * 256 := by ring
    calc List.foldl (fun acc b => acc * 256 + b) a (beBytes (k + 1) n)
        = List.foldl (fun acc b => acc * 256 + b)
            (a * 256 + n / 256 ^ k % 256) (beBytes k (n % 256 ^ k)) := by
          simp [beBytes]
      _ = (a * 256 + n / 256 ^ k % 256) * 256 ^ k + n % 256 ^ k % 256 ^ k := ih _ _
      _ = a * 256 ^ (k + 1) + n % 256 ^ (k + 1) := by
          have h : n % 256 ^ (k + 1) = n % 256 ^ k + 256 ^ k * (n / 256 ^ k % 256) := by
            rw [hmul, Nat.mod_mul]
          rw [h, Nat.mod_mod_of_dvd _ (dvd_refl _)]
          ring

theorem beNat_beBytes (k n : Nat) (h : n < 256 ^ k) : beNat (beBytes k n) = n := by
  have := beNat_foldl_beBytes k 0 n
  simpa [beNat, Nat.mod_eq_of_lt h] using this

theorem beBytes_bytes_lt (k n : Nat) : ∀ b ∈ beBytes k n, b < 256 := by
  induction k generalizing n with
  | zero => simp [beBytes]
  | succ k ih =>
    intro b hb
    simp only [beBytes, List.mem_cons] at hb
    rcases hb with h | h
    · exact h ▸ Nat.mod_lt _ (by norm_num)
    · exact ih _ b h

theorem beNat_lt (bs : List Nat) (h : ∀ b ∈ bs, b < 256) :
    beNat bs < 256 ^ bs.length := by
  suffices H : ∀ a, List.foldl (fun acc b => acc * 256 + b) a bs < (a + 1) * 256 ^ bs.length by
    have := H 0
    simpa [beNat] using this
  induction bs with
  | nil => intro a; simp
  | cons c cs ih =>
    intro a
    have hc : c < 256 := h c (List.mem_cons_self _ _)
    have ih' := ih (fun b hb => h b (List.mem_cons_of_mem _ hb)) (a * 256 + c)
    calc List.foldl (fun acc b => acc * 256 + b) a (c :: cs)
        = List.foldl (fun acc b => acc * 256 + b) (a * 256 + c) cs := rfl
      _ < (a * 256 + c + 1) * 256 ^ cs.length := ih'
      _ ≤ ((a + 1) * 256) * 256 ^ cs.length := by
          have : a * 256 + c + 1 ≤ (a + 1) * 256 := by nlinarith
          exact Nat.mul_le_mul_right _ this
      _ = (a + 1) * 256 ^ (c :: cs).length := by
          simp [List.length_cons, Nat.pow_succ]; ring

theorem beNat_cons (b : Nat) (bs : List Nat) :
    beNat (b :: bs) = b * 256 ^ bs.length + beNat bs := by
  have h1 := beNat_foldl_beBytes
  -- direct computation via the generic foldl identity
  suffices H : ∀ a, List.foldl (fun acc c => acc * 256 + c) a bs
      = a * 256 ^ bs.length + beNat bs by
    simpa [beNat] using H b
  induction bs with
  | nil => intro a; simp [beNat]
  | cons c cs ih =>
    intro a
    have h2 := ih (a * 256 + c)
    have h3 := ih c
    calc List.foldl (fun acc d => acc * 256 + d) a (c :: cs)
        = List.foldl (fun acc d => acc * 256 + d) (a * 256 + c) cs := rfl
      _ = (a * 256 + c) * 256 ^ cs.length + beNat cs := h2
      _ = a * 256 ^ (c :: cs).length + (c * 256 ^ cs.length + beNat cs) := by
          simp [List.length_cons, Nat.pow_succ]; ring
      _ = a * 256 ^ (c :: cs).length + beNat (c :: cs) := by
          have : beNat (c :: cs) = c * 256 ^ cs.length + beNat cs := by
            simpa [beNat] using h3
          rw [this]

theorem jacMulAux_eq_foldl (fuel : Nat) (p : JacG2) (s : Nat) :
    jacMulAux fuel p s = (natBits fuel s).foldl (g2MulStep p) jacZero := by
  induction fuel generalizing s with
  | zero => rfl
  | succ fuel ih =>
    by_cases hs : s = 0
    · simp [jacMulAux, natBits, hs]
    · rw [jacMulAux, natBits, if_neg hs, if_neg hs, List.foldl_append, ← ih (s / 2)]
      rcases Nat.mod_two_eq_zero_or_one s with h2 | h2 <;>
        simp [g2MulStep, h2]

theorem jacG2ToNats_inj (a b : JacG2) (h : jacG2ToNats a = jacG2ToNats b) : a = b := by
  obtain ⟨⟨axr, axi⟩, ⟨ayr, ayi⟩, ⟨azr, azi⟩⟩ := a
  obtain ⟨⟨bxr, bxi⟩, ⟨byr, byi⟩, ⟨bzr, bzi⟩⟩ := b
  simp only [jacG2ToNats, Prod.mk.injEq] at h
  obtain ⟨h1, h2, h3, h4, h5, h6⟩ := h
  have v := ZMod.val_injective pBN
  simp only [JacG2.mk.injEq, Fq2.mk.injEq]
  exact ⟨⟨v h1, v h2⟩, ⟨v h3, v h4⟩, ⟨v h5, v h6⟩⟩

theorem sgStep0 : List.foldl (g2MulStep g2OneJac) sgState0 sgChunk0 = sgState1 :=
  jacG2ToNats_inj _ _ (by decide)

theorem sgStep1 : List.foldl (g2MulStep g2OneJac) sgState1 sgChunk1 = sgState2 :=
  jacG2ToNats_inj _ _ (by decide)

theorem sgStep2 : List.foldl (g2MulStep g2OneJac) sgState2 sgChunk2 = sgState3 :=
  jacG2ToNats_inj _ _ (by decide)

theorem sgStep3 : List.foldl (g2MulStep g2OneJac) sgState3 sgChunk3 = sgState4 :=
  jacG2ToNats_inj _ _ (by decide)

theorem sgStep4 : List.foldl (g2MulStep g2OneJac) sgState4 sgChunk4 = sgState5 :=
  jacG2ToNats_inj _ _ (by decide)

theorem sgStep5 : List.foldl (g2MulStep g2OneJac) sgState5 sgChunk5 = sgState6 :=
  jacG2ToNats_inj _ _ (by decide)

theorem sgStep6 : List.foldl (g2MulStep g2OneJac) sgState6 sgChunk6 = sgState7 :=
  jacG2ToNats_inj _ _ (by decide)

theorem sgStep7 : List.foldl (g2MulStep g2OneJac) sgState7 sgChunk7 = sgState8 :=
  jacG2ToNats_inj _ _ (by decide)

theorem sgStep8 : List.foldl (g2MulStep g2OneJac) sgState8 sgChunk8 = sgState9 :=
  jacG2ToNats_inj _ _ (by decide)

theorem sgStep9 : List.foldl (g2MulStep g2OneJac) sgState9 sgChunk9 = sgState10 :=
  jacG2ToNats_inj _ _ (by decide)

theorem sgStep10 : List.foldl (g2MulStep g2OneJac) sgState10 sgChunk10 = sgState11 :=
  jacG2ToNats_inj _ _ (by decide)

theorem sgStep11 : List.foldl (g2MulStep g2OneJac) sgState11 sgChunk11 = sgState12 :=
  jacG2ToNats_inj _ _ (by decide)

theorem sgStep12 : List.foldl (g2MulStep g2OneJac) sgState12 sgChunk12 = sgState13 :=
  jacG2ToNats_inj _ _ (by decide)

theorem sgStep13 : List.foldl (g2MulStep g2OneJac) sgState13 sgChunk13 = sgState14 :=
  jacG2ToNats_inj _ _ (by decide)

theorem sgStep14 : List.foldl (g2MulStep g2OneJac) sgState14 sgChunk14 = sgState15 :=
  jacG2ToNats_inj _ _ (by decide)

theorem sgStep15 : List.foldl (g2MulStep g2OneJac) sgState15 sgChunk15 = sgState16 :=
  jacG2ToNats_inj _ _ (by decide)

theorem natBits_r : natBits 256 (rBN - 1) = rBits := by decide

theorem sgFold : rBits.foldl (g2MulStep g2OneJac) jacZero = sgState16 := by
  have h0 := sgStep0
  have h1 := sgStep1
  have h2 := sgStep2
  have h3 := sgStep3
  have h4 := sgStep4
  have h5 := sgStep5
  have h6 := sgStep6
  have h7 := sgStep7
  have h8 := sgStep8
  have h9 := sgStep9
  have h10 := sgStep10
  have h11 := sgStep11
  have h12 := sgStep12
  have h13 := sgStep13
  have h14 := sgStep14
  have h15 := sgStep15
  rw [rBits]
  simp only [List.foldl_append]
  rw [show jacZero = sgState0 from rfl]
  rw [h0, h1, h2, h3, h4, h5, h6, h7, h8, h9, h10, h11, h12, h13, h14]
  exact h15

/-- The generator passes the `bn` crate's G2 subgroup check. -/
theorem g2SubgroupCheck_gen : g2SubgroupCheck g2GenX g2GenY = true := by
  have hm : jacMulNat g2OneJac (rBN - 1) = sgState16 := by
    rw [jacMulNat, jacMulAux_eq_foldl, natBits_r]
    exact sgFold
  have : g2SubgroupCheck g2GenX g2GenY
      = (jacAdd (jacMulNat g2OneJac (rBN - 1)) g2OneJac).isZero := rfl
  rw [this, hm]
  decide

/-! ## Helper lemmas about the byte codec -/

theorem pBN_lt : pBN < 2 ^ 254 := by decide

theorem fq_val_lt (a : Fq) : a.val < 2 ^ 254 := lt_trans (ZMod.val_lt a) pBN_lt

theorem fqToBytes_length (a : Fq) : (fqToBytes a).length = 32 := beBytes_length 32 a.val

theorem beNat_fqToBytes (a : Fq) : beNat (fqToBytes a) = a.val := by
  have h : a.val < 256 ^ 32 := lt_trans (fq_val_lt a) (by decide)
  exact beNat_beBytes 32 a.val h

theorem fqFromSlice_fqToBytes (a : Fq) : fqFromSlice (fqToBytes a) = .ok a := by
  have hv : beNat (fqToBytes a) = a.val := beNat_fqToBytes a
  have hlt : beNat (fqToBytes a) < pBN := by rw [hv]; exact ZMod.val_lt a
  have hcast : ((beNat (fqToBytes a) : Nat) : Fq) = a := by
    rw [hv]
    exact ZMod.val_injective pBN (ZMod.val_cast_of_lt (ZMod.val_lt a))
  rw [fqFromSlice, if_neg (by rw [fqToBytes_length]; exact fun h => h rfl),
    if_pos hlt, hcast]

theorem fqToBytes_headI (a : Fq) : (fqToBytes a).headI = a.val / 256 ^ 31 % 256 := by
  simp [fqToBytes, beBytes]

theorem fqToBytes_headI_lt (a : Fq) : (fqToBytes a).headI < 64 := by
  rw [fqToBytes_headI]
  have hdiv : a.val / 256 ^ 31 < 64 := by
    have := fq_val_lt a
    have h2 : (2 : Nat) ^ 254 = 64 * 256 ^ 31 := by norm_num
    exact Nat.div_lt_of_lt_mul (by omega)
  calc a.val / 256 ^ 31 % 256 ≤ a.val / 256 ^ 31 := Nat.mod_le _ _
    _ < 64 := hdiv

theorem cons_headI_tail {l : List Nat} (h : l ≠ []) : l.headI :: l.tail = l := by
  cases l with
  | nil => exact absurd rfl h
  | cons a as => rfl

theorem or128_mask : ∀ b : Nat, b < 64 → (b ||| 128) &&& 192 = 128 := by decide

theorem or192_mask : ∀ b : Nat, b < 64 → (b ||| 192) &&& 192 = 192 := by decide

theorem or128_clear : ∀ b : Nat, b < 64 → (b ||| 128) &&& 63 = b := by decide

theorem or192_clear : ∀ b : Nat, b < 64 → (b ||| 192) &&& 63 = b := by decide

theorem listSlice_left (as bs : List Nat) (h : as.length = n) :
    listSlice (as ++ bs) 0 n = as := by
  rw [listSlice, List.drop_zero, Nat.sub_zero, ← h, List.take_left]

theorem listSlice_right (as bs : List Nat) (h : as.length = n) (i j : Nat) :
    listSlice (as ++ bs) (n + i) (n + j) = listSlice bs i j := by
  subst h
  rw [listSlice, listSlice]
  congr 1
  · omega
  · rw [List.drop_append_eq_append_drop]
    simp

theorem fq2_val_injective (a b : Fq2)
    (h1 : a.real.val = b.real.val) (h2 : a.imaginary.val = b.imaginary.val) : a = b := by
  obtain ⟨ar, ai⟩ := a
  obtain ⟨br, bi⟩ := b
  simp only [Fq2.mk.injEq]
  exact ⟨ZMod.val_injective pBN h1, ZMod.val_injective pBN h2⟩

theorem listSlice_self (l : List Nat) (h : l.length = n) : listSlice l 0 n = l := by
  rw [listSlice, List.drop_zero, Nat.sub_zero, ← h, List.take_length]

theorem fq2_neg_neg (a : Fq2) : -(-a) = a := by
  show (⟨- -a.real, - -a.imaginary⟩ : Fq2) = a
  rw [neg_neg, neg_neg]

theorem fq2LexLt_iff (a b : Fq2) :
    fq2LexLt a b = true ↔
      (a.imaginary.val < b.imaginary.val ∨
        (a.imaginary.val = b.imaginary.val ∧ a.real.val < b.real.val)) := by
  rw [fq2LexLt]
  split_ifs with h1 h2
  · simpa using Or.inl h1
  · simp only [Bool.false_eq_true, false_iff]
    omega
  · simp only [decide_eq_true_eq]
    omega

theorem fq2LexLt_asymm {a b : Fq2} (h : fq2LexLt a b = true) : fq2LexLt b a = false := by
  cases hba : fq2LexLt b a with
  | false => rfl
  | true =>
    have h1 := (fq2LexLt_iff a b).mp h
    have h2 := (fq2LexLt_iff b a).mp hba
    omega

theorem fq2LexLt_eq_of_both_false {a b : Fq2} (h1 : fq2LexLt a b = false)
    (h2 : fq2LexLt b a = false) : a = b := by
  have n1 : ¬ fq2LexLt a b = true := by rw [h1]; simp
  have n2 : ¬ fq2LexLt b a = true := by rw [h2]; simp
  rw [fq2LexLt_iff] at n1 n2
  exact fq2_val_injective a b (by omega) (by omega)

/-- Decoding the gnark-compressed encoding of an on-curve G1 point
recovers the point, provided the library square root returns one of the
two roots (its contract on quadratic residues). -/
theorem g1_compressed_roundtrip (p : AffineG1) (sqrtFq : FqSqrt)
    (hc : p.y * p.y = p.x * p.x * p.x + g1B)
    (hsq : sqrtFq (p.x * p.x * p.x + g1B) = some p.y ∨
           sqrtFq (p.x * p.x * p.x + g1B) = some (-p.y)) :
    SAffineG1.from_gnark_compressed_bytes sqrtFq (SAffineG1.to_gnark_compressed_bytes p) =
      .ok p := by
  obtain ⟨x, y⟩ := p
  simp only at hc hsq ⊢
  have hxlen : (fqToBytes x).length = 32 := fqToBytes_length x
  have hxhead : (fqToBytes x).headI < 64 := fqToBytes_headI_lt x
  have hne : fqToBytes x ≠ [] := by intro h; rw [h] at hxlen; simp at hxlen
  have htail : (fqToBytes x).tail.length = 31 := by rw [List.length_tail, hxlen]
  have hnewok : AffineG1.new x y = .ok ⟨x, y⟩ := by rw [AffineG1.new, if_pos hc]
  have hclear2 : ∀ f, f = 128 ∨ f = 192 →
      clearFlagBits (((fqToBytes x).headI ||| f) :: (fqToBytes x).tail) = fqToBytes x := by
    intro f hf
    rw [clearFlagBits]
    simp only [List.headI_cons, List.tail_cons]
    rcases hf with h | h <;> rw [h]
    · rw [or128_clear _ hxhead, cons_headI_tail hne]
    · rw [or192_clear _ hxhead, cons_headI_tail hne]
  by_cases hlt : y.val < (-y).val
  · rw [SAffineG1.to_gnark_compressed_bytes]
    simp only [if_pos hlt]
    rw [SAffineG1.from_gnark_compressed_bytes]
    rw [if_neg (by simp [htail])]
    simp only [List.headI_cons, List.tail_cons, MASK, COMPRESSED_POSITIVE]
    simp only [or128_mask _ hxhead]
    simp only [hclear2 128 (Or.inl rfl), fqFromSlice_fqToBytes]
    simp only [COMPRESSED_NEGATIVE]
    rcases hsq with h | h <;> simp only [h]
    · rw [if_pos hlt]
      simp only [if_neg (by norm_num : ¬ (128 : Nat) = 192), if_pos rfl, hnewok]
      rfl
    · have hlt2 : ¬ (-y).val < (- -y).val := by rw [neg_neg]; omega
      rw [if_neg hlt2]
      simp only [if_neg (by norm_num : ¬ (128 : Nat) = 192), if_pos rfl, neg_neg, hnewok]
      rfl
  · rw [SAffineG1.to_gnark_compressed_bytes]
    simp only [if_neg hlt]
    rw [SAffineG1.from_gnark_compressed_bytes]
    rw [if_neg (by simp [htail])]
    simp only [List.headI_cons, List.tail_cons, MASK, COMPRESSED_NEGATIVE]
    simp only [or192_mask _ hxhead]
    simp only [hclear2 192 (Or.inr rfl), fqFromSlice_fqToBytes]
    rcases hsq with h | h <;> simp only [h]
    · rw [if_neg hlt]
      simp only [if_pos rfl, hnewok]
      rfl
    · by_cases hlt2 : (-y).val < (- -y).val
      · rw [if_pos hlt2]
        simp only [if_pos rfl, if_true, neg_neg, hnewok]
        rfl
      · rw [if_neg hlt2]
        have heq : -y = y := by
          rw [neg_neg] at hlt2
          exact ZMod.val_injective pBN (by omega)
        simp only [if_pos rfl, neg_neg, heq, hnewok]
        rfl

/-- Decoding the uncompressed encoding of an on-curve G1 point recovers
the point. -/
theorem g1_uncompressed_roundtrip (p : AffineG1)
    (hc : p.y * p.y = p.x * p.x * p.x + g1B) :
    SAffineG1.from_uncompressed_bytes (SAffineG1.to_uncompressed_bytes p) = .ok p := by
  obtain ⟨x, y⟩ := p
  simp only at hc ⊢
  have hx := fqToBytes_length x
  have hy := fqToBytes_length y
  rw [SAffineG1.to_uncompressed_bytes, SAffineG1.from_uncompressed_bytes]
  simp only
  rw [if_neg (by simp [hx, hy])]
  have h2 : listSlice (fqToBytes x ++ fqToBytes y) 32 64 = fqToBytes y := by
    have h3 := listSlice_right (fqToBytes x) (fqToBytes y) hx 0 32
    norm_num at h3
    rw [h3, listSlice_self _ hy]
  simp only [listSlice_left _ _ hx, h2, fqFromSlice_fqToBytes]
  rw [AffineG1.new, if_pos hc]
  rfl

theorem listSlice_cat4 (a b c d : List Nat) (ha : a.length = 32) (hb : b.length = 32)
    (hc : c.length = 32) (hd : d.length = 32) :
    listSlice (a ++ b ++ c ++ d) 0 32 = a ∧
    listSlice (a ++ b ++ c ++ d) 32 64 = b ∧
    listSlice (a ++ b ++ c ++ d) 64 96 = c ∧
    listSlice (a ++ b ++ c ++ d) 96 128 = d := by
  have hassoc : a ++ b ++ c ++ d = a ++ (b ++ (c ++ d)) := by
    simp [List.append_assoc]
  rw [hassoc]
  refine ⟨listSlice_left _ _ ha, ?_, ?_, ?_⟩
  · have h1 := listSlice_right a (b ++ (c ++ d)) ha 0 32
    norm_num at h1
    rw [h1, listSlice_left _ _ hb]
  · have h1 := listSlice_right a (b ++ (c ++ d)) ha 32 64
    norm_num at h1
    have h2 := listSlice_right b (c ++ d) hb 0 32
    norm_num at h2
    rw [h1, h2, listSlice_left _ _ hc]
  · have h1 := listSlice_right a (b ++ (c ++ d)) ha 64 96
    norm_num at h1
    have h2 := listSlice_right b (c ++ d) hb 32 64
    norm_num at h2
    have h3 := listSlice_right c d hc 0 32
    norm_num at h3
    rw [h1, h2, h3, listSlice_self _ hd]

/-- Decoding the uncompressessed encoding of an on-curve, in-subgroup G2
point recovers the point. -/
theorem g2_uncompressed_roundtrip (p : AffineG2)
    (hc : p.y * p.y = p.x * p.x * p.x + g2B)
    (hsub : g2SubgroupCheck p.x p.y = true) :
    SAffineG2.from_uncompressed_bytes (SAffineG2.to_uncompressed_bytes p) = .ok p := by
  obtain ⟨x, y⟩ := p
  simp only at hc hsub ⊢
  have hxi := fqToBytes_length x.imaginary
  have hxr := fqToBytes_length x.real
  have hyi := fqToBytes_length y.imaginary
  have hyr := fqToBytes_length y.real
  obtain ⟨s1, s2, s3, s4⟩ := listSlice_cat4 _ _ _ _ hxi hxr hyi hyr
  rw [SAffineG2.to_uncompressed_bytes, SAffineG2.from_uncompressed_bytes]
  simp only
  rw [if_neg (by simp [hxi, hxr, hyi, hyr])]
  simp only [s1, s2, s3, s4, fqFromSlice_fqToBytes]
  rw [AffineG2.new]
  have hx : (⟨x.real, x.imaginary⟩ : Fq2) = x := rfl
  have hy : (⟨y.real, y.imaginary⟩ : Fq2) = y := rfl
  rw [hx, hy, if_pos hc, hsub]
  rfl

/-- Decoding the gnark-compressed encoding of an on-curve, in-subgroup
G2 point recovers the point, provided the library square root returns
one of the two roots. -/
theorem g2_compressed_roundtrip (p : AffineG2) (sqrtFq2 : Fq2Sqrt)
    (hc : p.y * p.y = p.x * p.x * p.x + g2B)
    (hsub : g2SubgroupCheck p.x p.y = true)
    (hsq : sqrtFq2 (p.x * p.x * p.x + g2B) = some p.y ∨
           sqrtFq2 (p.x * p.x * p.x + g2B) = some (-p.y)) :
    SAffineG2.from_gnark_compressed_bytes sqrtFq2 (SAffineG2.to_gnark_compressed_bytes p) =
      .ok p := by
  obtain ⟨x, y⟩ := p
  simp only at hc hsub hsq ⊢
  have hxilen : (fqToBytes x.imaginary).length = 32 := fqToBytes_length x.imaginary
  have hxrlen : (fqToBytes x.real).length = 32 := fqToBytes_length x.real
  have hxhead : (fqToBytes x.imaginary).headI < 64 := fqToBytes_headI_lt x.imaginary
  have hne : fqToBytes x.imaginary ≠ [] := by
    intro h; rw [h] at hxilen; simp at hxilen
  have htail : (fqToBytes x.imaginary).tail.length = 31 := by
    rw [List.length_tail, hxilen]
  have hnewok : AffineG2.new x y = .ok ⟨x, y⟩ := by
    rw [AffineG2.new, if_pos hc, hsub]
    rfl
  have hxeta : (⟨x.real, x.imaginary⟩ : Fq2) = x := rfl
  have hclen : ∀ f : Nat,
      (((fqToBytes x.imaginary).headI ||| f) :: (fqToBytes x.imaginary).tail).length = 32 := by
    intro f; simp [htail]
  have hright32 : ∀ (as bs : List Nat), as.length = 32 →
      listSlice (as ++ bs) 32 64 = listSlice bs 0 32 := by
    intro as bs h
    have h3 := listSlice_right as bs h 0 32
    norm_num at h3
    exact h3
  have hslice1 : ∀ f : Nat,
      listSlice (((fqToBytes x.imaginary).headI ||| f) ::
        ((fqToBytes x.imaginary).tail ++ fqToBytes x.real)) 0 32
      = ((fqToBytes x.imaginary).headI ||| f) :: (fqToBytes x.imaginary).tail := by
    intro f
    rw [← List.cons_append]
    exact listSlice_left _ _ (hclen f)
  have hslice2 : ∀ f : Nat,
      listSlice (((fqToBytes x.imaginary).headI ||| f) ::
        ((fqToBytes x.imaginary).tail ++ fqToBytes x.real)) 32 64
      = fqToBytes x.real := by
    intro f
    rw [← List.cons_append, hright32 _ _ (hclen f), listSlice_self _ hxrlen]
  have hclear2 : ∀ f, f = 128 ∨ f = 192 →
      clearFlagBits (((fqToBytes x.imaginary).headI ||| f) :: (fqToBytes x.imaginary).tail)
        = fqToBytes x.imaginary := by
    intro f hf
    rw [clearFlagBits]
    simp only [List.headI_cons, List.tail_cons]
    rcases hf with h | h <;> rw [h]
    · rw [or128_clear _ hxhead, cons_headI_tail hne]
    · rw [or192_clear _ hxhead, cons_headI_tail hne]
  by_cases hlex : fq2LexLt y (-y) = true
  · rw [SAffineG2.to_gnark_compressed_bytes]
    simp only [if_pos hlex, COMPRESSED_POSITIVE]
    rw [SAffineG2.from_gnark_compressed_bytes]
    rw [if_neg (by simp [htail, hxrlen])]
    simp only [List.cons_append, List.headI_cons, List.tail_cons, MASK]
    simp only [or128_mask _ hxhead]
    rw [if_neg (by rw [COMPRESSED_INFINITY]; omega)]
    simp only [hslice1 128, hslice2 128, hclear2 128 (Or.inl rfl), fqFromSlice_fqToBytes]
    simp only [hxeta]
    rcases hsq with h | h <;> simp only [h]
    · simp only [if_pos hlex]
      rw [hnewok]
      rfl
    · have hlex2 : fq2LexLt (-y) (- -y) = false := by
        rw [fq2_neg_neg]; exact fq2LexLt_asymm hlex
      have hlex2n : ¬ fq2LexLt (-y) (- -y) = true := by rw [hlex2]; simp
      simp only [if_neg hlex2n]
      rw [fq2_neg_neg, hnewok]
      rfl
  · have hlexf : fq2LexLt y (-y) = false := by
      cases hv : fq2LexLt y (-y)
      · rfl
      · exact absurd hv hlex
    rw [SAffineG2.to_gnark_compressed_bytes]
    simp only [if_neg hlex, COMPRESSED_NEGATIVE]
    rw [SAffineG2.from_gnark_compressed_bytes]
    rw [if_neg (by simp [htail, hxrlen])]
    simp only [List.cons_append, List.headI_cons, List.tail_cons, MASK]
    simp only [or192_mask _ hxhead]
    rw [if_neg (by rw [COMPRESSED_INFINITY]; omega)]
    simp only [hslice1 192, hslice2 192, hclear2 192 (Or.inr rfl), fqFromSlice_fqToBytes]
    simp only [hxeta]
    rcases hsq with h | h <;> simp only [h]
    · simp only [if_neg hlex]
      rw [hnewok]
      rfl
    · by_cases hlex2 : fq2LexLt (-y) (- -y) = true
      · simp only [if_pos hlex2]
        rw [fq2_neg_neg, hnewok]
        rfl
      · have hlex2f : fq2LexLt (-y) (- -y) = false := by
          cases hv : fq2LexLt (-y) (- -y)
          · rfl
          · exact absurd hv hlex2
        have heq : y = -y := by
          apply fq2LexLt_eq_of_both_false hlexf
          rw [fq2_neg_neg] at hlex2f
          exact hlex2f
        simp only [if_neg hlex2]
        rw [← heq, hnewok]
        rfl

theorem Except.mapError_ok {ε ε' α : Type} {f : ε → ε'} {r : Except ε α} {a : α} :
    Except.mapError f r = .ok a ↔ r = .ok a := by
  cases r <;> simp [Except.mapError]

theorem AffineG1.new_iff_g1 {x y : Fq} {pt : AffineG1} :
    AffineG1.new x y = .ok pt ↔ pt.x = x ∧ pt.y = y ∧ y * y = x * x * x + g1B := by
  rw [AffineG1.new]
  split_ifs with h
  · constructor
    · intro he
      injection he with he
      subst he
      exact ⟨rfl, rfl, h⟩
    · rintro ⟨h1, h2, _⟩
      obtain ⟨px, py⟩ := pt
      simp only at h1 h2
      rw [h1, h2]
  · constructor
    · intro he; exact absurd he (by simp)
    · rintro ⟨_, _, hcurve⟩
      exact absurd hcurve h

theorem AffineG2.new_iff_g2 {x y : Fq2} {pt : AffineG2} :
    AffineG2.new x y = .ok pt ↔
      pt.x = x ∧ pt.y = y ∧ y * y = x * x * x + g2B ∧ g2SubgroupCheck x y = true := by
  rw [AffineG2.new]
  split_ifs with h1 h2
  · constructor
    · intro he
      injection he with he
      subst he
      exact ⟨rfl, rfl, h1, h2⟩
    · rintro ⟨hx, hy, _, _⟩
      obtain ⟨px, py⟩ := pt
      simp only at hx hy
      rw [hx, hy]
  · constructor
    · intro he; exact absurd he (by simp)
    · rintro ⟨_, _, _, hsub⟩
      exact absurd hsub h2
  · constructor
    · intro he; exact absurd he (by simp)
    · rintro ⟨_, _, hcurve, _⟩
      exact absurd hcurve h1

/-- The generator returned by the decoders' INFINITY branch lies on the
curve. -/
theorem g2Gen_on_curve : g2GenY * g2GenY = g2GenX * g2GenX * g2GenX + g2B := by decide

theorem fromJacobianG2_g2One : fromJacobianG2 g2OneJac = some g2GenAffine := by decide

/-- Every point produced by `SAffineG1.from_uncompressed_bytes` lies on
the G1 curve. -/
theorem sg1_uncompressed_on_curve (bytes : List Nat) (pt : AffineG1)
    (h : SAffineG1.from_uncompressed_bytes bytes = .ok pt) :
    pt.y * pt.y = pt.x * pt.x * pt.x + g1B := by
  rw [SAffineG1.from_uncompressed_bytes] at h
  split at h
  · exact absurd h (by simp)
  · split at h
    · exact absurd h (by simp)
    · split at h
      · exact absurd h (by simp)
      · rw [Except.mapError_ok, AffineG1.new_iff_g1] at h
        obtain ⟨hx, hy, hc⟩ := h
        rw [hx, hy]
        exact hc

/-- Every point produced by `SAffineG2.from_uncompressed_bytes` lies on
the G2 curve. -/
theorem sg2_uncompressed_on_curve (bytes : List Nat) (pt : AffineG2)
    (h : SAffineG2.from_uncompressed_bytes bytes = .ok pt) :
    pt.y * pt.y = pt.x * pt.x * pt.x + g2B := by
  rw [SAffineG2.from_uncompressed_bytes] at h
  split at h
  · exact absurd h (by simp)
  · split at h
    · exact absurd h (by simp)
    · split at h
      · exact absurd h (by simp)
      · split at h
        · exact absurd h (by simp)
        · split at h
          · exact absurd h (by simp)
          · rw [Except.mapError_ok, AffineG2.new_iff_g2] at h
            obtain ⟨hx, hy, hc, _⟩ := h
            rw [hx, hy]
            exact hc

/-- Every point produced by the gnark_conversion G2 uncompressed decoder
lies on the G2 curve. -/
theorem g2_point_uncompressed_on_curve (bytes : List Nat) (pt : AffineG2)
    (h : uncompressed_bytes_to_g2_point bytes = .ok pt) :
    pt.y * pt.y = pt.x * pt.x * pt.x + g2B := by
  rw [uncompressed_bytes_to_g2_point] at h
  split at h
  · exact absurd h (by simp)
  · split at h
    · exact absurd h (by simp)
    · split at h
      · exact absurd h (by simp)
      · split at h
        · exact absurd h (by simp)
        · split at h
          · exact absurd h (by simp)
          · rw [Except.mapError_ok, AffineG2.new_iff_g2] at h
            obtain ⟨hx, hy, hc, _⟩ := h
            rw [hx, hy]
            exact hc

/-- Every point produced by `SAffineG1.from_gnark_compressed_bytes` lies
on the G1 curve. -/
theorem sg1_compressed_on_curve (sqrtFq : FqSqrt) (bytes : List Nat) (pt : AffineG1)
    (h : SAffineG1.from_gnark_compressed_bytes sqrtFq bytes = .ok pt) :
    pt.y * pt.y = pt.x * pt.x * pt.x + g1B := by
  rw [SAffineG1.from_gnark_compressed_bytes] at h
  dsimp only at h
  split at h
  · exact absurd h (by simp)
  · split at h
    · exact absurd h (by simp)
    · split at h
      · exact absurd h (by simp)
      · split at h
        · rw [Except.mapError_ok, AffineG1.new_iff_g1] at h
          obtain ⟨hx, hy, hc⟩ := h
          rw [hx, hy]
          exact hc
        · split at h
          · rw [Except.mapError_ok, AffineG1.new_iff_g1] at h
            obtain ⟨hx, hy, hc⟩ := h
            rw [hx, hy]
            exact hc
          · exact absurd h (by simp)

/-- Every point produced by `SAffineG2.from_gnark_compressed_bytes`
(including its INFINITY branch, which returns the generator) lies on the
G2 curve. -/
theorem sg2_compressed_on_curve (sqrtFq2 : Fq2Sqrt) (bytes : List Nat) (pt : AffineG2)
    (h : SAffineG2.from_gnark_compressed_bytes sqrtFq2 bytes = .ok pt) :
    pt.y * pt.y = pt.x * pt.x * pt.x + g2B := by
  rw [SAffineG2.from_gnark_compressed_bytes] at h
  dsimp only at h
  split at h
  · exact absurd h (by simp)
  · split at h
    · rw [fromJacobianG2_g2One] at h
      simp only [Option.some.injEq] at h
      injection h with h
      rw [← h]
      exact g2Gen_on_curve
    · split at h
      · exact absurd h (by simp)
      · split at h
        · exact absurd h (by simp)
        · split at h
          · exact absurd h (by simp)
          · split at h
            · rw [Except.mapError_ok, AffineG2.new_iff_g2] at h
              obtain ⟨hx, hy, hc, _⟩ := h
              rw [hx, hy]
              exact hc
            · split at h
              · rw [Except.mapError_ok, AffineG2.new_iff_g2] at h
                obtain ⟨hx, hy, hc, _⟩ := h
                rw [hx, hy]
                exact hc
              · exact absurd h (by simp)

/-- Canonical-root selection of the gnark-compressed G1 decoder: the
POSITIVE flag yields the numerically smaller root, the NEGATIVE flag the
larger. -/
theorem sg1_compressed_canonical (sqrtFq : FqSqrt) (bytes : List Nat) (pt : AffineG1)
    (h : SAffineG1.from_gnark_compressed_bytes sqrtFq bytes = .ok pt) :
    (bytes.headI &&& MASK = COMPRESSED_POSITIVE → pt.y.val ≤ (-pt.y).val) ∧
    (bytes.headI &&& MASK = COMPRESSED_NEGATIVE → (-pt.y).val ≤ pt.y.val) := by
  rw [SAffineG1.from_gnark_compressed_bytes] at h
  dsimp only at h
  split at h
  · exact absurd h (by simp)
  · split at h
    · exact absurd h (by simp)
    · split at h
      · exact absurd h (by simp)
      · rename_i x hx0 y hy0
        split at h
        · rename_i hneg
          rw [Except.mapError_ok, AffineG1.new_iff_g1] at h
          obtain ⟨_, hy, _⟩ := h
          constructor
          · intro hpos
            rw [hneg] at hpos
            rw [COMPRESSED_NEGATIVE, COMPRESSED_POSITIVE] at hpos
            omega
          · intro _
            rw [hy]
            by_cases hcmp : y.val < (-y).val
            · simp only [if_pos hcmp]
              rw [neg_neg]
              omega
            · simp only [if_neg hcmp]
              omega
        · split at h
          · rename_i hnotneg hpos
            rw [Except.mapError_ok, AffineG1.new_iff_g1] at h
            obtain ⟨_, hy, _⟩ := h
            constructor
            · intro _
              rw [hy]
              by_cases hcmp : y.val < (-y).val
              · simp only [if_pos hcmp]
                omega
              · simp only [if_neg hcmp]
                rw [neg_neg]
                omega
            · intro hneg
              rw [hpos] at hneg
              rw [COMPRESSED_NEGATIVE, COMPRESSED_POSITIVE] at hneg
              omega
          · exact absurd h (by simp)

/-- Canonical-root selection of the gnark-compressed G2 decoder: the
POSITIVE flag yields the lexicographically smaller root (imaginary part
first, then real part), the NEGATIVE flag the larger. -/
theorem sg2_compressed_canonical (sqrtFq2 : Fq2Sqrt) (bytes : List Nat) (pt : AffineG2)
    (h : SAffineG2.from_gnark_compressed_bytes sqrtFq2 bytes = .ok pt)
    (hflag : bytes.headI &&& MASK ≠ COMPRESSED_INFINITY) :
    (bytes.headI &&& MASK = COMPRESSED_POSITIVE → fq2LexLt (-pt.y) pt.y = false) ∧
    (bytes.headI &&& MASK = COMPRESSED_NEGATIVE → fq2LexLt pt.y (-pt.y) = false) := by
  rw [SAffineG2.from_gnark_compressed_bytes] at h
  dsimp only at h
  rw [if_neg hflag] at h
  split at h
  · exact absurd h (by simp)
  · split at h
    · exact absurd h (by simp)
    · split at h
      · exact absurd h (by simp)
      · split at h
        · exact absurd h (by simp)
        · rename_i y hy0
          split at h
          · rename_i hneg
            rw [Except.mapError_ok, AffineG2.new_iff_g2] at h
            obtain ⟨_, hy, _, _⟩ := h
            constructor
            · intro hpos
              rw [hneg] at hpos
              rw [COMPRESSED_NEGATIVE, COMPRESSED_POSITIVE] at hpos
              omega
            · intro _
              rw [hy]
              by_cases hcmp : fq2LexLt y (-y) = true
              · simp only [if_pos hcmp]
                rw [fq2_neg_neg]
                exact fq2LexLt_asymm hcmp
              · simp only [if_neg hcmp]
                cases hv : fq2LexLt y (-y)
                · rfl
                · exact absurd hv hcmp
          · split at h
            · rename_i hnotneg hpos
              rw [Except.mapError_ok, AffineG2.new_iff_g2] at h
              obtain ⟨_, hy, _, _⟩ := h
              constructor
              · intro _
                rw [hy]
                by_cases hcmp : fq2LexLt y (-y) = true
                · simp only [if_pos hcmp]
                  exact fq2LexLt_asymm hcmp
                · simp only [if_neg hcmp]
                  rw [fq2_neg_neg]
                  cases hv : fq2LexLt y (-y)
                  · rfl
                  · exact absurd hv hcmp
              · intro hneg
                rw [hpos] at hneg
                rw [COMPRESSED_NEGATIVE, COMPRESSED_POSITIVE] at hneg
                omega
            · exact absurd h (by simp)

/-- When the library square root reports that `x^3 + b` has no root
(its contract on quadratic non-residues), the gnark-compressed G1
decoder fails with the invalid-point error. -/
theorem sg1_compressed_nonresidue (sqrtFq : FqSqrt) (bytes : List Nat) (x : Fq)
    (hlen : bytes.length = 32)
    (hx : fqFromSlice (clearFlagBits bytes) = .ok x)
    (hnone : sqrtFq (x * x * x + g1B) = none) :
    SAffineG1.from_gnark_compressed_bytes sqrtFq bytes = .error .InvalidPoint := by
  rw [SAffineG1.from_gnark_compressed_bytes]
  rw [if_neg (by rw [hlen]; exact fun hc => hc rfl)]
  simp only [hx, hnone]

/-- When the library square root reports that `x^3 + b` has no root, the
gnark_conversion compressed G2 decoder fails with the invalid-point
error (via `get_ys_from_x_g2`). -/
theorem g2_compressed_nonresidue (sqrtFq2 : Fq2Sqrt) (bytes : List Nat) (x0 x1 : Fq)
    (hlen : bytes.length = 64)
    (hflag : bytes.headI &&& MASK ≠ COMPRESSED_INFINITY)
    (hx1 : fqFromSlice (clearFlagBits (listSlice bytes 0 32)) = .ok x1)
    (hx0 : fqFromSlice (listSlice bytes 32 64) = .ok x0)
    (hnone : sqrtFq2 (⟨x0, x1⟩ * ⟨x0, x1⟩ * ⟨x0, x1⟩ + g2B) = none) :
    compressed_bytes_to_affine_g2 sqrtFq2 bytes = .error .InvalidPoint := by
  rw [compressed_bytes_to_affine_g2]
  rw [if_neg (by rw [hlen]; exact fun hc => hc rfl)]
  dsimp only
  rw [if_neg hflag]
  simp only [hx1, hx0, get_ys_from_x_g2, hnone]

/-- Every point produced by the gnark_conversion G1 uncompressed decoder
lies on the G1 curve. -/
theorem g1_uncompressed_on_curve_conv (buf : List Nat) (pt : AffineG1)
    (h : uncompressed_bytes_to_affine_g1 buf = .ok pt) :
    pt.y * pt.y = pt.x * pt.x * pt.x + g1B := by
  rw [uncompressed_bytes_to_affine_g1] at h
  split at h
  · exact absurd h (by simp)
  · split at h
    · exact absurd h (by simp)
    · split at h
      · exact absurd h (by simp)
      · rw [Except.mapError_ok, AffineG1.new_iff_g1] at h
        obtain ⟨hx, hy, hc⟩ := h
        rw [hx, hy]
        exact hc

/-- Every point produced by the gnark_conversion G1 compressed decoder
lies on the G1 curve. -/
theorem g1_compressed_on_curve_conv (sqrtFq : FqSqrt) (buf : List Nat) (pt : AffineG1)
    (h : compressed_bytes_to_affine_g1 sqrtFq buf = .ok pt) :
    pt.y * pt.y = pt.x * pt.x * pt.x + g1B := by
  rw [compressed_bytes_to_affine_g1] at h
  dsimp only at h
  split at h
  · exact absurd h (by simp)
  · split at h
    · exact absurd h (by simp)
    · split at h
      · exact absurd h (by simp)
      · split at h
        · rw [Except.mapError_ok, AffineG1.new_iff_g1] at h
          obtain ⟨hx, hy, hc⟩ := h
          rw [hx, hy]
          exact hc
        · split at h
          · rw [Except.mapError_ok, AffineG1.new_iff_g1] at h
            obtain ⟨hx, hy, hc⟩ := h
            rw [hx, hy]
            exact hc
          · exact absurd h (by simp)

/-- Every point produced by the gnark_conversion G2 compressed decoder
(including its INFINITY branch) lies on the G2 curve. -/
theorem g2_compressed_on_curve_conv (sqrtFq2 : Fq2Sqrt) (buf : List Nat) (pt : AffineG2)
    (h : compressed_bytes_to_affine_g2 sqrtFq2 buf = .ok pt) :
    pt.y * pt.y = pt.x * pt.x * pt.x + g2B := by
  rw [compressed_bytes_to_affine_g2] at h
  dsimp only at h
  split at h
  · exact absurd h (by simp)
  · by_cases hinf : buf.headI &&& MASK = COMPRESSED_INFINITY
    · rw [if_pos hinf, fromJacobianG2_g2One] at h
      simp only at h
      injection h with h
      rw [← h]
      exact g2Gen_on_curve
    · rw [if_neg hinf] at h
      split at h
      · exact absurd h (by simp)
      · split at h
        · exact absurd h (by simp)
        · split at h
          · exact absurd h (by simp)
          · split at h
            · rw [Except.mapError_ok, AffineG2.new_iff_g2] at h
              obtain ⟨hx, hy, hc, _⟩ := h
              rw [hx, hy]
              exact hc
            · split at h
              · rw [Except.mapError_ok, AffineG2.new_iff_g2] at h
                obtain ⟨hx, hy, hc, _⟩ := h
                rw [hx, hy]
                exact hc
              · exact absurd h (by simp)

theorem foldl_add_eq_sum {α G : Type} [AddCommMonoid G] (f : α → G) (l : List α) (a : G) :
    l.foldl (fun acc x => acc + f x) a = a + (l.map f).sum := by
  induction l generalizing a with
  | nil => simp
  | cons x xs ih =>
    simp only [List.foldl_cons, List.map_cons, List.sum_cons]
    rw [ih (a + f x), add_assoc]

theorem map_zip_eq_zipWith {α β G : Type} (f : α → β → G) (l1 : List α) (l2 : List β) :
    (l1.zip l2).map (fun p => f p.1 p.2) = List.zipWith f l1 l2 := by
  induction l1 generalizing l2 with
  | nil => simp
  | cons x xs ih => cases l2 <;> simp [ih]

/-- `prepare_inputs` succeeds exactly on matching lengths and then
computes `k[0] + Σ k[i+1] * input[i]`. -/
theorem prepare_inputs_spec {G1T G2T : Type} [AddCommMonoid G1T] (smul : Fr → G1T → G1T)
    (vk : Groth16VerifyingKey G1T G2T) (public_inputs : List Fr) :
    (prepare_inputs smul vk public_inputs = .error .PrepareInputsFailed ↔
      public_inputs.length + 1 ≠ vk.g1.k.length)
    ∧ (public_inputs.length + 1 = vk.g1.k.length →
        prepare_inputs smul vk public_inputs =
          .ok (vk.g1.k.headD 0 + (List.zipWith (fun i b => smul i b)
            public_inputs vk.g1.k.tail).sum)) := by
  rw [prepare_inputs]
  by_cases hlen : public_inputs.length + 1 ≠ vk.g1.k.length
  · rw [if_pos hlen]
    exact ⟨⟨fun _ => hlen, fun _ => rfl⟩, fun h => absurd h hlen⟩
  · rw [if_neg hlen]
    constructor
    · constructor
      · intro h; exact absurd h (by simp)
      · intro h; exact absurd h hlen
    · intro _
      rw [foldl_add_eq_sum (fun p : Fr × G1T => smul p.1 p.2)
        (public_inputs.zip vk.g1.k.tail) (vk.g1.k.headD 0),
        map_zip_eq_zipWith (fun i b => smul i b)]

theorem fr_val_lt_253 (bs : List Nat) (hlen : bs.length = 32)
    (hbytes : ∀ b ∈ bs, b < 256) (hhead : bs.headI < 32) :
    beNat bs < 2 ^ 253 := by
  obtain ⟨b0, rest⟩ : ∃ b0 rest, bs = b0 :: rest := by
    cases bs with
    | nil => simp at hlen
    | cons b r => exact ⟨b, r, rfl⟩
  obtain ⟨rest, rfl⟩ := rest
  simp only [List.headI_cons] at hhead
  have hrlen : rest.length = 31 := by simpa using hlen
  have hrest : beNat rest < 256 ^ 31 := by
    have := beNat_lt rest (fun b hb => hbytes b (List.mem_cons_of_mem _ hb))
    rwa [hrlen] at this
  rw [beNat_cons, hrlen]
  have h1 : b0 * 256 ^ 31 + beNat rest < (b0 + 1) * 256 ^ 31 := by
    rw [Nat.add_mul, one_mul]
    omega
  have h2 : (b0 + 1) * 256 ^ 31 ≤ 32 * 256 ^ 31 := Nat.mul_le_mul_right _ (by omega)
  have h3 : (32 : Nat) * 256 ^ 31 = 2 ^ 253 := by norm_num
  omega

/-! ## Claim theorems -/

/-- C2 (code_bug evidence): on a 64-byte input whose flag bits are
INFINITY (0b01, first byte `0x40`), both compressed-G2 decoders return —
without parsing any coordinate bytes — the affine form of `G2::one()`,
which is the fixed G2 GENERATOR of the `bn` crate, not the group
identity: its Jacobian embedding has `z = 1`, so `is_zero` is false
(`G2::zero()`, the identity, has `z = 0` and no affine form at all). -/
theorem c2_infinity_flag_returns_generator :
    compressed_bytes_to_affine_g2 (fun _ => none) (64 :: List.replicate 63 0) =
      .ok g2GenAffine
    ∧ SAffineG2.from_gnark_compressed_bytes (fun _ => none) (64 :: List.replicate 63 0) =
      .ok g2GenAffine
    ∧ (jacOfAffine g2GenAffine).isZero = false := by
  refine ⟨by decide, by decide, by decide⟩

/-- C10: every non-infinity point successfully returned by any of the
byte decoders — uncompressed or gnark-compressed, G1 or G2, in either
generation of the code — satisfies its curve equation
`y^2 = x^3 + b`. -/
theorem c10_decoded_points_on_curve :
    (∀ (bytes : List Nat) (pt : AffineG1),
      SAffineG1.from_uncompressed_bytes bytes = .ok pt →
        pt.y * pt.y = pt.x * pt.x * pt.x + g1B)
    ∧ (∀ (bytes : List Nat) (pt : AffineG2),
      SAffineG2.from_uncompressed_bytes bytes = .ok pt →
        pt.y * pt.y = pt.x * pt.x * pt.x + g2B)
    ∧ (∀ (buf : List Nat) (pt : AffineG2),
      uncompressed_bytes_to_g2_point buf = .ok pt →
        pt.y * pt.y = pt.x * pt.x * pt.x + g2B)
    ∧ (∀ (sqrtFq : FqSqrt) (bytes : List Nat) (pt : AffineG1),
      SAffineG1.from_gnark_compressed_bytes sqrtFq bytes = .ok pt →
        pt.y * pt.y = pt.x * pt.x * pt.x + g1B)
    ∧ (∀ (sqrtFq2 : Fq2Sqrt) (bytes : List Nat) (pt : AffineG2),
      SAffineG2.from_gnark_compressed_bytes sqrtFq2 bytes = .ok pt →
        pt.y * pt.y = pt.x * pt.x * pt.x + g2B)
    ∧ (∀ (buf : List Nat) (pt : AffineG1),
      uncompressed_bytes_to_affine_g1 buf = .ok pt →
        pt.y * pt.y = pt.x * pt.x * pt.x + g1B)
    ∧ (∀ (sqrtFq : FqSqrt) (buf : List Nat) (pt : AffineG1),
      compressed_bytes_to_affine_g1 sqrtFq buf = .ok pt →
        pt.y * pt.y = pt.x * pt.x * pt.x + g1B)
    ∧ (∀ (sqrtFq2 : Fq2Sqrt) (buf : List Nat) (pt : AffineG2),
      compressed_bytes_to_affine_g2 sqrtFq2 buf = .ok pt →
        pt.y * pt.y = pt.x * pt.x * pt.x + g2B) :=
  ⟨sg1_uncompressed_on_curve, sg2_uncompressed_on_curve, g2_point_uncompressed_on_curve,
   sg1_compressed_on_curve, sg2_compressed_on_curve, g1_uncompressed_on_curve_conv,
   g1_compressed_on_curve_conv, g2_compressed_on_curve_conv⟩

/-- Witness for C10: a concrete successful G1 decode (the point (1,2))
and a concrete successful G2 decode (the G2 generator), with the
curve-membership conclusions obtained from the claim theorem. -/
theorem c10_decoded_points_on_curve_witness :
    ((⟨1, 2⟩ : AffineG1).y * (⟨1, 2⟩ : AffineG1).y =
      (⟨1, 2⟩ : AffineG1).x * (⟨1, 2⟩ : AffineG1).x * (⟨1, 2⟩ : AffineG1).x + g1B)
    ∧ (g2GenAffine.y * g2GenAffine.y =
      g2GenAffine.x * g2GenAffine.x * g2GenAffine.x + g2B) := by
  have h1 : SAffineG1.from_uncompressed_bytes
      (SAffineG1.to_uncompressed_bytes ⟨1, 2⟩) = .ok ⟨1, 2⟩ :=
    g1_uncompressed_roundtrip ⟨1, 2⟩ (by decide)
  have h2 : SAffineG2.from_uncompressed_bytes
      (SAffineG2.to_uncompressed_bytes g2GenAffine) = .ok g2GenAffine :=
    g2_uncompressed_roundtrip g2GenAffine g2Gen_on_curve g2SubgroupCheck_gen
  exact ⟨c10_decoded_points_on_curve.1 _ _ h1, c10_decoded_points_on_curve.2.1 _ _ h2⟩

/-- C3: for every compressed input that decodes successfully (so
`x^3 + b` has a square root), the decoded y is a root of `x^3 + b`, the
POSITIVE flag always selects the canonical root — numerically smaller of
the two for G1, lexicographically smaller (imaginary part first, then
real part) for G2 — and the NEGATIVE flag always selects the other. -/
theorem c3_canonical_root_selection :
    (∀ (sqrtFq : FqSqrt) (bytes : List Nat) (pt : AffineG1),
      SAffineG1.from_gnark_compressed_bytes sqrtFq bytes = .ok pt →
        pt.y * pt.y = pt.x * pt.x * pt.x + g1B
        ∧ (bytes.headI &&& MASK = COMPRESSED_POSITIVE → pt.y.val ≤ (-pt.y).val)
        ∧ (bytes.headI &&& MASK = COMPRESSED_NEGATIVE → (-pt.y).val ≤ pt.y.val))
    ∧ (∀ (sqrtFq2 : Fq2Sqrt) (bytes : List Nat) (pt : AffineG2),
      SAffineG2.from_gnark_compressed_bytes sqrtFq2 bytes = .ok pt →
      bytes.headI &&& MASK ≠ COMPRESSED_INFINITY →
        pt.y * pt.y = pt.x * pt.x * pt.x + g2B
        ∧ (bytes.headI &&& MASK = COMPRESSED_POSITIVE → fq2LexLt (-pt.y) pt.y = false)
        ∧ (bytes.headI &&& MASK = COMPRESSED_NEGATIVE → fq2LexLt pt.y (-pt.y) = false)) := by
  constructor
  · intro sqrtFq bytes pt h
    exact ⟨sg1_compressed_on_curve sqrtFq bytes pt h,
      (sg1_compressed_canonical sqrtFq bytes pt h).1,
      (sg1_compressed_canonical sqrtFq bytes pt h).2⟩
  · intro sqrtFq2 bytes pt h hflag
    exact ⟨sg2_compressed_on_curve sqrtFq2 bytes pt h,
      (sg2_compressed_canonical sqrtFq2 bytes pt h hflag).1,
      (sg2_compressed_canonical sqrtFq2 bytes pt h hflag).2⟩

/-- Witness for C3: decoding the POSITIVE-flag encodings of the G1 point
(1,2) and of the G2 generator succeeds, and the claim theorem yields
canonicity of the decoded roots at these inputs. -/
theorem c3_canonical_root_selection_witness :
    SAffineG1.from_gnark_compressed_bytes (fun _ => some 2)
      (SAffineG1.to_gnark_compressed_bytes ⟨1, 2⟩) = .ok ⟨1, 2⟩
    ∧ (⟨1, 2⟩ : AffineG1).y.val ≤ (-(⟨1, 2⟩ : AffineG1).y).val
    ∧ SAffineG2.from_gnark_compressed_bytes (fun _ => some g2GenY)
      (SAffineG2.to_gnark_compressed_bytes g2GenAffine) = .ok g2GenAffine
    ∧ fq2LexLt (-g2GenAffine.y) g2GenAffine.y = false := by
  have h1 : SAffineG1.from_gnark_compressed_bytes (fun _ => some 2)
      (SAffineG1.to_gnark_compressed_bytes ⟨1, 2⟩) = .ok ⟨1, 2⟩ :=
    g1_compressed_roundtrip ⟨1, 2⟩ (fun _ => some 2) (by decide) (Or.inl rfl)
  have h2 : SAffineG2.from_gnark_compressed_bytes (fun _ => some g2GenY)
      (SAffineG2.to_gnark_compressed_bytes g2GenAffine) = .ok g2GenAffine :=
    g2_compressed_roundtrip g2GenAffine (fun _ => some g2GenY) g2Gen_on_curve
      g2SubgroupCheck_gen (Or.inl rfl)
  refine ⟨h1, ?_, h2, ?_⟩
  · exact (c3_canonical_root_selection.1 _ _ _ h1).2.1 (by decide)
  · exact (c3_canonical_root_selection.2 _ _ _ h2 (by decide)).2.1 (by decide)

/-- C4: on a 32-byte compressed-G1 input (resp. 64-byte compressed-G2
input) with a valid POSITIVE or NEGATIVE flag whose x-coordinate parses
but for which the library square root reports that `x^3 + b` has no
root (the `bn` crate's sqrt returns `None` exactly on quadratic
non-residues), decompression fails with the invalid-point error — it
neither succeeds nor panics (the embedded decoders are total). -/
theorem c4_nonresidue_rejected :
    (∀ (sqrtFq : FqSqrt) (bytes : List Nat) (x : Fq),
      bytes.length = 32 →
      (bytes.headI &&& MASK = COMPRESSED_POSITIVE ∨ bytes.headI &&& MASK = COMPRESSED_NEGATIVE) →
      fqFromSlice (clearFlagBits bytes) = .ok x →
      sqrtFq (x * x * x + g1B) = none →
      SAffineG1.from_gnark_compressed_bytes sqrtFq bytes = .error .InvalidPoint)
    ∧ (∀ (sqrtFq2 : Fq2Sqrt) (bytes : List Nat) (x0 x1 : Fq),
      bytes.length = 64 →
      (bytes.headI &&& MASK = COMPRESSED_POSITIVE ∨ bytes.headI &&& MASK = COMPRESSED_NEGATIVE) →
      fqFromSlice (clearFlagBits (listSlice bytes 0 32)) = .ok x1 →
      fqFromSlice (listSlice bytes 32 64) = .ok x0 →
      sqrtFq2 (⟨x0, x1⟩ * ⟨x0, x1⟩ * ⟨x0, x1⟩ + g2B) = none →
      compressed_bytes_to_affine_g2 sqrtFq2 bytes = .error .InvalidPoint) := by
  constructor
  · intro sqrtFq bytes x hlen _ hx hnone
    exact sg1_compressed_nonresidue sqrtFq bytes x hlen hx hnone
  · intro sqrtFq2 bytes x0 x1 hlen hflag hx1 hx0 hnone
    have hinf : bytes.headI &&& MASK ≠ COMPRESSED_INFINITY := by
      rcases hflag with h | h <;> rw [h] <;> decide
    exact g2_compressed_nonresidue sqrtFq2 bytes x0 x1 hlen hinf hx1 hx0 hnone

/-- Witness for C4: with a square-root oracle that returns `None`, the
all-zero-x POSITIVE-flag inputs are rejected with the invalid-point
error, via the claim theorem. -/
theorem c4_nonresidue_rejected_witness :
    SAffineG1.from_gnark_compressed_bytes (fun _ => none) (128 :: List.replicate 31 0) =
      .error .InvalidPoint
    ∧ compressed_bytes_to_affine_g2 (fun _ => none) (128 :: List.replicate 63 0) =
      .error .InvalidPoint := by
  constructor
  · exact c4_nonresidue_rejected.1 (fun _ => none) (128 :: List.replicate 31 0) 0
      (by decide) (Or.inl (by decide)) (by decide) rfl
  · exact c4_nonresidue_rejected.2 (fun _ => none) (128 :: List.replicate 63 0) 0 0
      (by decide) (Or.inl (by decide)) (by decide) (by decide) rfl

/-- C7: `prepare_inputs` fails with `PrepareInputsFailed` iff
`len(public_inputs) + 1 ≠ len(vk.k)`, and on matching lengths returns
`vk.k[0] + Σ vk.k[i+1] * public_inputs[i]` (the `bn` crate's G1 group
modelled as an additive commutative monoid with scalar action). -/
theorem c7_prepare_inputs (G1T G2T : Type) [AddCommMonoid G1T] (smul : Fr → G1T → G1T)
    (vk : Groth16VerifyingKey G1T G2T) (public_inputs : List Fr) :
    (prepare_inputs smul vk public_inputs = .error .PrepareInputsFailed ↔
      public_inputs.length + 1 ≠ vk.g1.k.length)
    ∧ (public_inputs.length + 1 = vk.g1.k.length →
        prepare_inputs smul vk public_inputs =
          .ok (vk.g1.k.headD 0 + (List.zipWith (fun i b => smul i b)
            public_inputs vk.g1.k.tail).sum)) :=
  prepare_inputs_spec smul vk public_inputs

/-- Witness for C7: a concrete instance over the integers with one
K-point and no public inputs. -/
theorem c7_prepare_inputs_witness :
    prepare_inputs (fun _ z => z) (⟨⟨0, [5]⟩, ⟨0, 0, 0⟩⟩ : Groth16VerifyingKey ℤ ℤ) [] =
      .ok ((5 : ℤ) + ([] : List ℤ).sum) := by
  have h := (c7_prepare_inputs ℤ ℤ (fun _ z => z) ⟨⟨0, [5]⟩, ⟨0, 0, 0⟩⟩ []).2 (by simp)
  simpa using h

/-- C1: given a prepared public-input point, the verifier accepts iff
the four-term multi-pairing product
`e(-ar, bs) * e(prepared, gamma) * e(krs, delta) * e(alpha, -beta)`
equals the identity of the target group; any other product value yields
`ProofVerificationFailed`, which is distinct (by constructor) from every
decode error `GeneralError e`. -/
theorem c1_pairing_check (G1T G2T GtT : Type) [AddCommMonoid G1T] [Monoid GtT]
    [DecidableEq GtT] (pair : G1T → G2T → GtT) (negG1 : G1T → G1T) (negG2 : G2T → G2T)
    (smul : Fr → G1T → G1T) (vk : Groth16VerifyingKey G1T G2T)
    (proof : Groth16Proof G1T G2T) (public_inputs : List Fr) (prep : G1T)
    (hprep : prepare_inputs smul vk public_inputs = .ok prep) :
    (verify_groth16_algebraic pair negG1 negG2 smul vk proof public_inputs = .ok () ↔
      pair (negG1 proof.ar) proof.bs * pair prep vk.g2.gamma *
        pair proof.krs vk.g2.delta * pair vk.g1.alpha (negG2 vk.g2.beta) = 1)
    ∧ (pair (negG1 proof.ar) proof.bs * pair prep vk.g2.gamma *
        pair proof.krs vk.g2.delta * pair vk.g1.alpha (negG2 vk.g2.beta) ≠ 1 →
      verify_groth16_algebraic pair negG1 negG2 smul vk proof public_inputs =
        .error .ProofVerificationFailed)
    ∧ (∀ e : Error, (Groth16Error.ProofVerificationFailed : Groth16Error) ≠ .GeneralError e) := by
  have hbatch : pairing_batch pair
      [(negG1 proof.ar, proof.bs), (prep, vk.g2.gamma),
       (proof.krs, vk.g2.delta), (vk.g1.alpha, negG2 vk.g2.beta)]
      = pair (negG1 proof.ar) proof.bs * pair prep vk.g2.gamma *
        pair proof.krs vk.g2.delta * pair vk.g1.alpha (negG2 vk.g2.beta) := by
    simp [pairing_batch, mul_assoc]
  rw [verify_groth16_algebraic, hprep]
  dsimp only
  rw [hbatch]
  refine ⟨?_, ?_, fun e h => Groth16Error.noConfusion h⟩
  · by_cases hp : pair (negG1 proof.ar) proof.bs * pair prep vk.g2.gamma *
        pair proof.krs vk.g2.delta * pair vk.g1.alpha (negG2 vk.g2.beta) = 1
    · rw [if_pos hp]
      exact ⟨fun _ => hp, fun _ => rfl⟩
    · rw [if_neg hp]
      exact ⟨fun hc => absurd hc (by simp), fun hc => absurd hc hp⟩
  · intro hp
    rw [if_neg hp]

/-- Witness for C1: a trivial pairing structure over `Unit` target
group in which the product is the identity and the verifier accepts. -/
theorem c1_pairing_check_witness :
    verify_groth16_algebraic (fun (_ : ℤ) (_ : ℤ) => (1 : ℤ)) id id (fun _ z => z)
      (⟨⟨0, [5]⟩, ⟨0, 0, 0⟩⟩ : Groth16VerifyingKey ℤ ℤ) (⟨0, 0, 0⟩ : Groth16Proof ℤ ℤ) [] =
      .ok () := by
  have hprep : prepare_inputs (fun (_ : Fr) (z : ℤ) => z)
      (⟨⟨0, [5]⟩, ⟨0, 0, 0⟩⟩ : Groth16VerifyingKey ℤ ℤ) [] = .ok 5 := by
    rw [prepare_inputs]
    simp
  have h := (c1_pairing_check ℤ ℤ ℤ (fun _ _ => 1) id id (fun _ z => z)
    ⟨⟨0, [5]⟩, ⟨0, 0, 0⟩⟩ ⟨0, 0, 0⟩ [] 5 hprep).1
  exact h.mpr (by norm_num)

/-- C8: for every byte string and every (externally supplied) 32-byte
digest function — covering both SHA-256 and Blake3 — the hash-to-field
operation zeroes exactly the top 3 bits of the first digest byte,
decodes the result as a scalar-field element with NO modular reduction
(the value is preserved exactly), always succeeds, and the output's
32-byte big-endian encoding has its top 3 bits zero (first byte below
32). -/
theorem c8_hash_to_field_masking (hasher : List Nat → List Nat) (public_inputs : List Nat)
    (hlen : (hasher public_inputs).length = 32)
    (hbytes : ∀ b ∈ hasher public_inputs, b < 256) :
    hash_public_inputs hasher public_inputs =
      .ok ((beNat (((hasher public_inputs).headI &&& 31) ::
        (hasher public_inputs).tail) : Nat) : Fr)
    ∧ ((beNat (((hasher public_inputs).headI &&& 31) ::
        (hasher public_inputs).tail) : Nat) : Fr).val
      = beNat (((hasher public_inputs).headI &&& 31) :: (hasher public_inputs).tail)
    ∧ beNat (((hasher public_inputs).headI &&& 31) :: (hasher public_inputs).tail) < 2 ^ 253
    ∧ (beBytes 32 ((beNat (((hasher public_inputs).headI &&& 31) ::
        (hasher public_inputs).tail) : Nat) : Fr).val).headI < 32 := by
  have hmlen : (((hasher public_inputs).headI &&& 31) ::
      (hasher public_inputs).tail).length = 32 := by
    simp [List.length_tail, hlen]
  have hmbytes : ∀ b ∈ ((hasher public_inputs).headI &&& 31) ::
      (hasher public_inputs).tail, b < 256 := by
    intro b hb
    rcases List.mem_cons.mp hb with h | h
    · have : (hasher public_inputs).headI &&& 31 ≤ 31 := Nat.and_le_right
      omega
    · exact hbytes b (List.mem_of_mem_tail h)
  have hmhead : (((hasher public_inputs).headI &&& 31) ::
      (hasher public_inputs).tail).headI < 32 := by
    simp only [List.headI_cons]
    have : (hasher public_inputs).headI &&& 31 ≤ 31 := Nat.and_le_right
    omega
  have hm : beNat (((hasher public_inputs).headI &&& 31) ::
      (hasher public_inputs).tail) < 2 ^ 253 :=
    fr_val_lt_253 _ hmlen hmbytes hmhead
  have hlt : beNat (((hasher public_inputs).headI &&& 31) ::
      (hasher public_inputs).tail) < rBN := lt_trans hm (by decide)
  have hval : ((beNat (((hasher public_inputs).headI &&& 31) ::
      (hasher public_inputs).tail) : Nat) : Fr).val
      = beNat (((hasher public_inputs).headI &&& 31) :: (hasher public_inputs).tail) :=
    ZMod.val_cast_of_lt hlt
  have hfr : frFromSlice (((hasher public_inputs).headI &&& 31) ::
      (hasher public_inputs).tail)
      = .ok ((beNat (((hasher public_inputs).headI &&& 31) ::
        (hasher public_inputs).tail) : Nat) : Fr) := by
    rw [frFromSlice, if_neg (by rw [hmlen]; exact fun hc => hc rfl), if_pos hlt]
  refine ⟨?_, hval, hm, ?_⟩
  · rw [hash_public_inputs, hfr]
    rfl
  · rw [hval]
    have hv : beNat (((hasher public_inputs).headI &&& 31) ::
        (hasher public_inputs).tail) < 32 * 256 ^ 31 := by
      have h3 : (32 : Nat) * 256 ^ 31 = 2 ^ 253 := by norm_num
      omega
    rw [show (32 : Nat) = 31 + 1 from rfl, beBytes]
    simp only [List.headI_cons]
    have hdiv : beNat (((hasher public_inputs).headI &&& 31) ::
        (hasher public_inputs).tail) / 256 ^ 31 < 32 :=
      Nat.div_lt_of_lt_mul (by omega)
    calc beNat (((hasher public_inputs).headI &&& 31) ::
          (hasher public_inputs).tail) / 256 ^ 31 % 256
        ≤ beNat (((hasher public_inputs).headI &&& 31) ::
          (hasher public_inputs).tail) / 256 ^ 31 := Nat.mod_le _ _
      _ < 32 := hdiv

/-- Witness for C8: the all-ones digest on empty input. -/
theorem c8_hash_to_field_masking_witness :
    hash_public_inputs (fun _ => List.replicate 32 255) [] =
      .ok ((beNat ((((fun (_ : List Nat) => List.replicate 32 255) []).headI &&& 31) ::
        ((fun (_ : List Nat) => List.replicate 32 255) []).tail) : Nat) : Fr) :=
  (c8_hash_to_field_masking (fun _ => List.replicate 32 255) []
    (by decide) (by decide)).1

/-- C5 counterexample: the gnark-compressed verifying-key loader ACCEPTS
a buffer whose total length (293) differs from
`header_size + num_k * g1_point_size` (292): the trailing byte is
silently ignored and a verifying key is returned, not a
`BufferLengthError`.  (The square-root oracle returns 2 at the one
point where it is consulted, `1^3 + 3 = 4`, agreeing with the library's
square root up to sign, which the decoder canonicalizes away; the
`Fq2` square root is never consulted since all G2 fields carry the
INFINITY flag.) -/
theorem c5_counterexample :
    c5Buffer.length = 293
    ∧ c5Buffer.length ≠ GNARK_VK_COMPRESSED_HEADER_SIZE +
        (readNumK c5Buffer GNARK_VK_COMPRESSED_NUM_K_OFFSET) * 32
    ∧ Types.Groth16VerifyingKey.from_gnark_bytes (fun a => if a = 4 then some 2 else none)
        (fun _ => none) c5Buffer =
      .ok ⟨⟨⟨1, 2⟩, []⟩, ⟨⟨g2GenX, -g2GenY⟩, g2GenAffine, g2GenAffine⟩⟩ :=
  ⟨by decide, by decide, by decide⟩

/-- C5 (amended): `from_gnark_bytes` returns a `BufferLengthError` when
the buffer is shorter than the 292-byte header or shorter than
`header + num_k * 32` (longer buffers are parsed, trailing bytes
ignored); `from_uncompressed_bytes` returns a `BufferLengthError` when
the buffer is shorter than its 452-byte header or when the total length
differs from `header + num_k * 64`; neither embedded loader can panic
(they are total functions); the low-level gnark_conversion loader
performs NO length validation and panics (modelled by `none`) on
buffers too short to slice, e.g. the empty buffer. -/
theorem c5_vk_length_validation :
    (∀ (sq : FqSqrt) (sq2 : Fq2Sqrt) (buffer : List Nat),
      buffer.length < GNARK_VK_COMPRESSED_HEADER_SIZE →
      Types.Groth16VerifyingKey.from_gnark_bytes sq sq2 buffer =
        .error (.Serialization (.BufferLength GNARK_VK_COMPRESSED_HEADER_SIZE buffer.length)))
    ∧ (∀ (sq : FqSqrt) (sq2 : Fq2Sqrt) (buffer : List Nat),
      GNARK_VK_COMPRESSED_HEADER_SIZE ≤ buffer.length →
      buffer.length < GNARK_VK_COMPRESSED_HEADER_SIZE +
        (readNumK buffer GNARK_VK_COMPRESSED_NUM_K_OFFSET) * 32 →
      Types.Groth16VerifyingKey.from_gnark_bytes sq sq2 buffer =
        .error (.Serialization (.BufferLength (GNARK_VK_COMPRESSED_HEADER_SIZE +
          (readNumK buffer GNARK_VK_COMPRESSED_NUM_K_OFFSET) * 32) buffer.length)))
    ∧ (∀ bytes : List Nat,
      bytes.length < GROTH16_VK_UNCOMPRESSED_HEADER_SIZE →
      Types.Groth16VerifyingKey.from_uncompressed_bytes bytes =
        .error (.Serialization (.BufferLength GROTH16_VK_UNCOMPRESSED_HEADER_SIZE bytes.length)))
    ∧ (∀ bytes : List Nat,
      GROTH16_VK_UNCOMPRESSED_HEADER_SIZE ≤ bytes.length →
      bytes.length ≠ GROTH16_VK_UNCOMPRESSED_HEADER_SIZE + (readNumK bytes 448) * 64 →
      Types.Groth16VerifyingKey.from_uncompressed_bytes bytes =
        .error (.Serialization (.BufferLength (GROTH16_VK_UNCOMPRESSED_HEADER_SIZE +
          (readNumK bytes 448) * 64) bytes.length)))
    ∧ (∀ (sq : FqSqrt) (sq2 : Fq2Sqrt),
      load_groth16_verifying_key_from_bytes sq sq2 [] = none) := by
  refine ⟨?_, ?_, ?_, ?_, ?_⟩
  · intro sq sq2 buffer h
    rw [Types.Groth16VerifyingKey.from_gnark_bytes, if_pos h]
  · intro sq sq2 buffer h1 h2
    rw [Types.Groth16VerifyingKey.from_gnark_bytes, if_neg (by omega)]
    dsimp only
    rw [if_pos h2]
  · intro bytes h
    rw [Types.Groth16VerifyingKey.from_uncompressed_bytes, if_pos h]
  · intro bytes h1 h2
    rw [Types.Groth16VerifyingKey.from_uncompressed_bytes, if_neg (by omega)]
    dsimp only
    rw [if_pos h2]
  · intro sq sq2
    rfl

/-- Witness for C5 (amended): concrete short buffers are rejected with
the stated buffer-length errors, and the unchecked loader "panics" on
the empty buffer. -/
theorem c5_vk_length_validation_witness :
    Types.Groth16VerifyingKey.from_gnark_bytes (fun _ => none) (fun _ => none) [] =
      .error (.Serialization (.BufferLength GNARK_VK_COMPRESSED_HEADER_SIZE 0))
    ∧ Types.Groth16VerifyingKey.from_uncompressed_bytes (List.replicate 10 0) =
      .error (.Serialization (.BufferLength GROTH16_VK_UNCOMPRESSED_HEADER_SIZE 10))
    ∧ load_groth16_verifying_key_from_bytes (fun _ => none) (fun _ => none) [] = none := by
  refine ⟨?_, ?_, c5_vk_length_validation.2.2.2.2 _ _⟩
  · exact c5_vk_length_validation.1 _ _ [] (by decide)
  · exact c5_vk_length_validation.2.2.1 (List.replicate 10 0) (by decide)

/-- The two generations' uncompressed G2 decoders are the same
function. -/
theorem g2_uncompressed_decoders_agree (bs : List Nat) :
    uncompressed_bytes_to_g2_point bs = SAffineG2.from_uncompressed_bytes bs := rfl

/-- C6 counterexample: the gnark_conversion proof loader ACCEPTS a
257-byte buffer — a length other than 256 or 160 — parsing its first
256 bytes and ignoring the trailing byte, instead of rejecting it. -/
theorem c6_counterexample :
    c6Buffer.length = 257
    ∧ load_groth16_proof_from_bytes c6Buffer =
      .ok ⟨⟨1, 2⟩, ⟨1, 2⟩, g2GenAffine⟩ := by
  have ha : (SAffineG1.to_uncompressed_bytes (⟨1, 2⟩ : AffineG1)).length = 64 := by
    simp [SAffineG1.to_uncompressed_bytes, fqToBytes_length]
  have hb : (SAffineG2.to_uncompressed_bytes g2GenAffine).length = 128 := by
    simp [SAffineG2.to_uncompressed_bytes, fqToBytes_length]
  have hlen : c6Buffer.length = 257 := by
    simp [c6Buffer, ha, hb]
  have hassoc : c6Buffer = SAffineG1.to_uncompressed_bytes ⟨1, 2⟩ ++
      (SAffineG2.to_uncompressed_bytes g2GenAffine ++
        (SAffineG1.to_uncompressed_bytes ⟨1, 2⟩ ++ [0])) := by
    rw [c6Buffer]
    simp [List.append_assoc]
  have s1 : listSlice c6Buffer 0 64 = SAffineG1.to_uncompressed_bytes ⟨1, 2⟩ := by
    rw [hassoc]
    exact listSlice_left _ _ ha
  have s2 : listSlice c6Buffer 64 192 = SAffineG2.to_uncompressed_bytes g2GenAffine := by
    rw [hassoc]
    have h1 := listSlice_right (SAffineG1.to_uncompressed_bytes ⟨1, 2⟩)
      (SAffineG2.to_uncompressed_bytes g2GenAffine ++
        (SAffineG1.to_uncompressed_bytes ⟨1, 2⟩ ++ [0])) ha 0 128
    norm_num at h1
    rw [h1]
    exact listSlice_left _ _ hb
  have s3 : listSlice c6Buffer 192 256 = SAffineG1.to_uncompressed_bytes ⟨1, 2⟩ := by
    rw [hassoc]
    have h1 := listSlice_right (SAffineG1.to_uncompressed_bytes ⟨1, 2⟩)
      (SAffineG2.to_uncompressed_bytes g2GenAffine ++
        (SAffineG1.to_uncompressed_bytes ⟨1, 2⟩ ++ [0])) ha 128 192
    norm_num at h1
    rw [h1]
    have h2 := listSlice_right (SAffineG2.to_uncompressed_bytes g2GenAffine)
      (SAffineG1.to_uncompressed_bytes ⟨1, 2⟩ ++ [0]) hb 0 64
    norm_num at h2
    rw [h2]
    exact listSlice_left (SAffineG1.to_uncompressed_bytes ⟨1, 2⟩) [0] ha
  have hA : uncompressed_bytes_to_affine_g1 (SAffineG1.to_uncompressed_bytes ⟨1, 2⟩) =
      .ok ⟨1, 2⟩ := by decide
  have hB : uncompressed_bytes_to_g2_point (SAffineG2.to_uncompressed_bytes g2GenAffine) =
      .ok g2GenAffine := by
    rw [g2_uncompressed_decoders_agree]
    exact g2_uncompressed_roundtrip g2GenAffine g2Gen_on_curve g2SubgroupCheck_gen
  refine ⟨hlen, ?_⟩
  rw [load_groth16_proof_from_bytes,
    if_neg (by rw [hlen, GROTH16_PROOF_LENGTH]; omega)]
  simp only [s1, s2, s3, hA, hB]

/-- C6 (amended): the typed loaders accept exactly 256 bytes
(uncompressed) and exactly 160 bytes (compressed), rejecting any other
length with a typed `BufferLengthError`; the gnark_conversion loader
rejects only buffers SHORTER than 256 bytes (with
`GeneralError(InvalidData)`) and parses the first 256 bytes of longer
buffers, ignoring trailing data. -/
theorem c6_proof_length_validation :
    (∀ buffer : List Nat, buffer.length ≠ GROTH16_PROOF_LENGTH →
      Types.Groth16Proof.load_from_gnark_bytes buffer =
        .error (.Serialization (.BufferLength GROTH16_PROOF_LENGTH buffer.length)))
    ∧ (∀ (sq : FqSqrt) (sq2 : Fq2Sqrt) (bytes : List Nat),
      bytes.length ≠ GROTH16_PROOF_COMPRESSED_SIZE →
      Types.Groth16Proof.from_gnark_compressed_bytes sq sq2 bytes =
        .error (.Serialization (.BufferLength GROTH16_PROOF_COMPRESSED_SIZE bytes.length)))
    ∧ (∀ buffer : List Nat, buffer.length < GROTH16_PROOF_LENGTH →
      load_groth16_proof_from_bytes buffer = .error (.GeneralError .InvalidData)) := by
  refine ⟨?_, ?_, ?_⟩
  · intro buffer h
    rw [Types.Groth16Proof.load_from_gnark_bytes, if_pos h]
  · intro sq sq2 bytes h
    rw [Types.Groth16Proof.from_gnark_compressed_bytes, if_pos h]
  · intro buffer h
    rw [load_groth16_proof_from_bytes, if_pos h]

/-- Witness for C6 (amended): a 255-byte buffer is rejected by both
uncompressed loaders and a 159-byte buffer by the compressed loader. -/
theorem c6_proof_length_validation_witness :
    Types.Groth16Proof.load_from_gnark_bytes (List.replicate 255 0) =
      .error (.Serialization (.BufferLength GROTH16_PROOF_LENGTH 255))
    ∧ Types.Groth16Proof.from_gnark_compressed_bytes (fun _ => none) (fun _ => none)
        (List.replicate 159 0) =
      .error (.Serialization (.BufferLength GROTH16_PROOF_COMPRESSED_SIZE 159))
    ∧ load_groth16_proof_from_bytes (List.replicate 255 0) =
      .error (.GeneralError .InvalidData) := by
  refine ⟨?_, ?_, ?_⟩
  · exact c6_proof_length_validation.1 (List.replicate 255 0) (by decide)
  · exact c6_proof_length_validation.2.1 _ _ (List.replicate 159 0) (by decide)
  · exact c6_proof_length_validation.2.2 (List.replicate 255 0) (by decide)

/-- C9: decode(encode(p)) = p for every valid (non-infinity) point in
every supported layout — uncompressed and gnark-compressed, G1 and G2.
"Valid" means on-curve (and, for G2, in the subgroup checked by
`AffineG2::new` — automatic for every `bn::AffineG2` value); for the
compressed layouts the library square root is assumed to return one of
the two roots of `x^3 + b`, its documented behaviour on quadratic
residues. -/
theorem c9_codec_roundtrip :
    (∀ p : AffineG1, p.y * p.y = p.x * p.x * p.x + g1B →
      SAffineG1.from_uncompressed_bytes (SAffineG1.to_uncompressed_bytes p) = .ok p)
    ∧ (∀ (p : AffineG1) (sqrtFq : FqSqrt), p.y * p.y = p.x * p.x * p.x + g1B →
      (sqrtFq (p.x * p.x * p.x + g1B) = some p.y ∨
       sqrtFq (p.x * p.x * p.x + g1B) = some (-p.y)) →
      SAffineG1.from_gnark_compressed_bytes sqrtFq (SAffineG1.to_gnark_compressed_bytes p) =
        .ok p)
    ∧ (∀ p : AffineG2, p.y * p.y = p.x * p.x * p.x + g2B →
      g2SubgroupCheck p.x p.y = true →
      SAffineG2.from_uncompressed_bytes (SAffineG2.to_uncompressed_bytes p) = .ok p)
    ∧ (∀ (p : AffineG2) (sqrtFq2 : Fq2Sqrt), p.y * p.y = p.x * p.x * p.x + g2B →
      g2SubgroupCheck p.x p.y = true →
      (sqrtFq2 (p.x * p.x * p.x + g2B) = some p.y ∨
       sqrtFq2 (p.x * p.x * p.x + g2B) = some (-p.y)) →
      SAffineG2.from_gnark_compressed_bytes sqrtFq2 (SAffineG2.to_gnark_compressed_bytes p) =
        .ok p) :=
  ⟨fun p hc => g1_uncompressed_roundtrip p hc,
   fun p sqrtFq hc hsq => g1_compressed_roundtrip p sqrtFq hc hsq,
   fun p hc hsub => g2_uncompressed_roundtrip p hc hsub,
   fun p sqrtFq2 hc hsub hsq => g2_compressed_roundtrip p sqrtFq2 hc hsub hsq⟩

/-- Witness for C9: all four round-trips at concrete points — the G1
point (1,2) and the G2 generator. -/
theorem c9_codec_roundtrip_witness :
    SAffineG1.from_uncompressed_bytes (SAffineG1.to_uncompressed_bytes ⟨1, 2⟩) = .ok ⟨1, 2⟩
    ∧ SAffineG1.from_gnark_compressed_bytes (fun _ => some (-2))
        (SAffineG1.to_gnark_compressed_bytes ⟨1, 2⟩) = .ok ⟨1, 2⟩
    ∧ SAffineG2.from_uncompressed_bytes (SAffineG2.to_uncompressed_bytes g2GenAffine) =
        .ok g2GenAffine
    ∧ SAffineG2.from_gnark_compressed_bytes (fun _ => some g2GenY)
        (SAffineG2.to_gnark_compressed_bytes g2GenAffine) = .ok g2GenAffine := by
  refine ⟨?_, ?_, ?_, ?_⟩
  · exact c9_codec_roundtrip.1 ⟨1, 2⟩ (by decide)
  · exact c9_codec_roundtrip.2.1 ⟨1, 2⟩ (fun _ => some (-2)) (by decide) (Or.inr rfl)
  · exact c9_codec_roundtrip.2.2.1 g2GenAffine g2Gen_on_curve g2SubgroupCheck_gen
  · exact c9_codec_roundtrip.2.2.2 g2GenAffine (fun _ => some g2GenY) g2Gen_on_curve
      g2SubgroupCheck_gen (Or.inl rfl)
